import Mathlib

/-!
# Vorratio core logic, shallowly embedded

A shallow embedding of the algorithmic core of the Vorratio inventory
application: unit conversion (`convertUnits`), FIFO batch consumption
(article consume, direct batch consume, stock correction, recipe cooking)
and shopping-list generation.  Quantities are modelled as rationals;
JavaScript truthiness of nullable strings/numbers is modelled explicitly;
`Math.round`, `Math.ceil` and `Math.min` are modelled exactly on ℚ.
Database fetches (`findMany` with `where`/`orderBy`) are modelled by
passing the fetched, ordered row lists; writes are modelled functionally
by returning the updated rows.
-/

namespace Vorratio

/-- JavaScript truthiness of a nullable string (`null`/`undefined`/`""` are falsy). -/
def truthyStr : Option String → Bool
  | none => false
  | some s => s ≠ ""

/-- JavaScript truthiness of a plain string (`""` is falsy). -/
def truthyS (s : String) : Bool := s ≠ ""

/-- JavaScript truthiness of a nullable number (`null`/`undefined`/`0` are falsy). -/
def truthyQ : Option ℚ → Bool
  | none => false
  | some q => q ≠ 0

/-- JavaScript `a || b` for a nullable string `a` and nullable string `b`. -/
def jsOrStr (a b : Option String) : Option String :=
  if truthyStr a then a else b

/-- JavaScript `a || b` for a nullable number `a` falling back to a number `b`. -/
def jsOrQ (a : Option ℚ) (b : ℚ) : ℚ :=
  match a with
  | none => b
  | some q => if q = 0 then b else q

/-- JavaScript `a || b` for two nullable numbers. -/
def jsOrQQ (a b : Option ℚ) : Option ℚ :=
  match a with
  | none => b
  | some q => if q = 0 then b else q

/-- JavaScript `Math.round`: round half toward positive infinity. -/
def jsRound (x : ℚ) : ℤ := ⌊x + 1/2⌋

/-- `Math.round(n * 10000) / 10000`: the internal 4-decimal rounding
(`roundQuantity` in the shopping-list generator). -/
def round4 (x : ℚ) : ℚ := (jsRound (x * 10000) : ℚ) / 10000

/-- `Math.round(n * 100) / 100`: the 2-decimal rounding used for stored quantities. -/
def round2 (x : ℚ) : ℚ := (jsRound (x * 100) : ℚ) / 100

theorem jsRound_nonneg {x : ℚ} (hx : 0 ≤ x) : 0 ≤ jsRound x := by
  unfold jsRound
  have : (0 : ℚ) ≤ x + 1/2 := by linarith
  exact Int.floor_nonneg.mpr this

theorem round4_nonneg {x : ℚ} (hx : 0 ≤ x) : 0 ≤ round4 x := by
  unfold round4
  have h : 0 ≤ jsRound (x * 10000) := jsRound_nonneg (by positivity)
  positivity

theorem round2_nonneg {x : ℚ} (hx : 0 ≤ x) : 0 ≤ round2 x := by
  unfold round2
  have h : 0 ≤ jsRound (x * 100) := jsRound_nonneg (by positivity)
  positivity

theorem round4_pos_of_pos {x : ℚ} (hx : 0 < round4 x) : 0 < x := by
  by_contra h
  push_neg at h
  have h10 : x * 10000 ≤ 0 := by nlinarith
  have : jsRound (x * 10000) ≤ 0 := by
    unfold jsRound
    have : x * 10000 + 1/2 < 1 := by linarith
    have hf : ⌊x * 10000 + 1/2⌋ < 1 := by
      exact Int.floor_lt.mpr (by push_cast; linarith)
    omega
  unfold round4 at hx
  have : ((jsRound (x * 10000) : ℚ)) ≤ 0 := by exact_mod_cast this
  nlinarith

/-! ## Unit conversion service (`units.ts`) -/

/-- The `UnitData` shape consumed by `convertUnits`: a unit record with an
optional linear conversion group and an optional one-hop custom conversion
edge.  `convertsToUnitSymbol` models the hydrated `convertsToUnit?.symbol`. -/
structure UnitData where
  id : Option String := none
  symbol : String
  conversionGroup : Option String := none
  conversionFactor : ℚ := 1
  convertsToUnitId : Option String := none
  convertsToAmount : Option ℚ := none
  convertsToUnitSymbol : Option String := none
  deriving Repr, DecidableEq

/-- `fromUnit.convertsToUnit?.symbol === toUnit.symbol || fromUnit.convertsToUnitId === toUnit.id`:
the strict-equality match of a custom edge against a target unit. -/
def edgeMatches (edgeSymbol : Option String) (edgeTargetId : Option String)
    (target : UnitData) : Bool :=
  (match edgeSymbol with
   | some s => s = target.symbol
   | none => false) ||
  (match edgeTargetId, target.id with
   | some i, some j => i = j
   | _, _ => false)

/-- `convertUnits(quantity, fromUnit, toUnit)`: same symbol → identity;
shared truthy conversion group → linear factor conversion; custom edge on
`fromUnit` targeting `toUnit` → multiply; custom edge on `toUnit` targeting
`fromUnit` → divide; otherwise not convertible (`null`). -/
def convertUnits (quantity : ℚ) (fromUnit toUnit : UnitData) : Option ℚ :=
  if fromUnit.symbol = toUnit.symbol then
    some quantity
  else if truthyStr fromUnit.conversionGroup ∧
          fromUnit.conversionGroup = toUnit.conversionGroup then
    some (quantity * fromUnit.conversionFactor / toUnit.conversionFactor)
  else if truthyStr fromUnit.convertsToUnitId ∧ truthyQ fromUnit.convertsToAmount ∧
          edgeMatches fromUnit.convertsToUnitSymbol fromUnit.convertsToUnitId toUnit then
    some (quantity * (fromUnit.convertsToAmount.getD 0))
  else if truthyStr toUnit.convertsToUnitId ∧ truthyQ toUnit.convertsToAmount ∧
          edgeMatches toUnit.convertsToUnitSymbol toUnit.convertsToUnitId fromUnit then
    some (quantity / (toUnit.convertsToAmount.getD 0))
  else
    none

/-- `convertQuantityBetweenUnits(quantity, fromSymbol, toSymbol)`: the
store-backed variant; resolves unit records by (unique) symbol, returning
`null` when either symbol is unknown. -/
def convertQuantityBetweenUnits (units : List UnitData) (quantity : ℚ)
    (fromSymbol toSymbol : String) : Option ℚ :=
  if fromSymbol = toSymbol then
    some quantity
  else
    match units.find? (fun u => u.symbol = fromSymbol),
          units.find? (fun u => u.symbol = toSymbol) with
    | some fromUnit, some toUnit => convertUnits quantity fromUnit toUnit
    | _, _ => none

/-- Gram and kilogram as seeded by `DEFAULT_UNITS`. -/
def unitG : UnitData :=
  { symbol := "g", conversionGroup := some "mass", conversionFactor := 1 }

def unitKg : UnitData :=
  { symbol := "kg", conversionGroup := some "mass", conversionFactor := 1000 }

def unitRoll : UnitData :=
  { id := some "u-roll", symbol := "Roll",
    convertsToUnitId := some "u-sheet", convertsToAmount := some 50,
    convertsToUnitSymbol := some "Sheet" }

def unitSheet : UnitData :=
  { id := some "u-sheet", symbol := "Sheet" }

example : convertUnits 2 unitKg unitG = some 2000 := by
  simp [convertUnits, unitKg, unitG, truthyStr]; norm_num
example : convertUnits 2000 unitG unitKg = some 2 := by
  simp [convertUnits, unitG, unitKg, truthyStr]; norm_num
example : convertUnits 2 unitRoll unitSheet = some 100 := by
  simp [convertUnits, unitRoll, unitSheet, truthyStr, truthyQ, edgeMatches]; norm_num
example : convertUnits 100 unitSheet unitRoll = some 2 := by
  simp [convertUnits, unitSheet, unitRoll, truthyStr, truthyQ, edgeMatches]; norm_num

/-! ## Batches and FIFO consumption (`articles.ts`, `batches.ts`) -/

/-- One purchase lot of an article (the `Batch` row). -/
structure Batch where
  id : ℕ
  articleId : String
  quantity : ℚ
  initialQuantity : ℚ := 0
  purchasePrice : Option ℚ := none
  expiryDate : Option ℤ := none
  purchaseDate : ℤ := 0
  deriving Repr, DecidableEq

/-- An appended `ConsumptionLog` row (timestamps and free-text notes are not
needed by any property and are omitted). -/
structure ConsumptionLog where
  articleId : String
  batchId : Option ℕ
  quantity : ℚ
  source : String
  recipeId : Option String := none
  deriving Repr, DecidableEq

/-- The fetch predicate of every consumption query:
`where: { articleId, quantity: { gt: 0 } }`. -/
def batchMatch (aid : String) (b : Batch) : Bool :=
  b.articleId = aid ∧ 0 < b.quantity

/-- Total available stock of an article: sum of the quantities of its
batches with `quantity > 0` (the `currentStock`/`totalStock` computation). -/
def stockOf (aid : String) (batches : List Batch) : ℚ :=
  ((batches.filter (batchMatch aid)).map (·.quantity)).sum

/-- Sum of the quantities of all of an article's batch rows, positive or not. -/
def articleStockAll (aid : String) (batches : List Batch) : ℚ :=
  ((batches.filter (fun b => b.articleId = aid)).map (·.quantity)).sum

/-- Result of one FIFO consumption loop: the updated batch rows, the logs
written, and the quantity still unconsumed. -/
structure FifoResult where
  batches : List Batch
  logs : List ConsumptionLog
  remaining : ℚ
  deriving Repr, DecidableEq

/-- The shared FIFO consumption loop (duplicated verbatim in the article
consume, stock correction and recipe cook handlers): iterate the batch rows
in their fetched order; stop once `remaining <= 0`; rows of other articles
or without positive stock are not fetched and stay untouched; a fetched row
is decremented by `Math.min(batch.quantity, remaining)` and one log is
appended for it.  The batch list is the global store in FIFO order
(expiry ascending with nulls last, then purchase date ascending). -/
def fifoConsumeAll (aid source : String) (recipeId : Option String) :
    List Batch → ℚ → FifoResult
  | [], remaining => ⟨[], [], remaining⟩
  | b :: bs, remaining =>
    if remaining ≤ 0 then ⟨b :: bs, [], remaining⟩
    else if batchMatch aid b then
      let toConsume := min b.quantity remaining
      let r := fifoConsumeAll aid source recipeId bs (remaining - toConsume)
      ⟨{ b with quantity := b.quantity - toConsume } :: r.batches,
       { articleId := aid, batchId := some b.id, quantity := toConsume,
         source := source, recipeId := recipeId } :: r.logs,
       r.remaining⟩
    else
      let r := fifoConsumeAll aid source recipeId bs remaining
      ⟨b :: r.batches, r.logs, r.remaining⟩

/-- Successful response of `POST /articles/:id/consume`. -/
structure ConsumeArticleOk where
  batches : List Batch
  consumed : ℚ
  remaining : ℚ
  logs : List ConsumptionLog
  deriving Repr, DecidableEq

/-- `POST /articles/:id/consume`: reject a non-positive quantity; reject when
the article has no batch with positive stock; otherwise consume FIFO
(partial consumption allowed) and report `consumed = quantity - remaining`. -/
def consumeFromArticle (batches : List Batch) (aid : String) (quantity : ℚ)
    (source : String := "MANUAL") : Except String ConsumeArticleOk :=
  if quantity ≤ 0 then .error "Quantity must be positive"
  else if (batches.filter (batchMatch aid)).isEmpty then
    .error "No stock available"
  else
    let r := fifoConsumeAll aid source none batches quantity
    .ok ⟨r.batches, quantity - r.remaining, r.remaining, r.logs⟩

/-- Outcome of `POST /articles/:id/correct-stock`: the post-state batch rows,
the correction logs written, and the reported stocks. -/
structure CorrectStockOutcome where
  batches : List Batch
  newLogs : List ConsumptionLog
  previousStock : ℚ
  newStock : ℚ
  difference : ℚ
  deriving Repr, DecidableEq

/-- `POST /articles/:id/correct-stock`: with `difference = actualStock -
currentStock`, do nothing when zero; create one synthetic batch and one
negative-quantity CORRECTION log when positive; consume FIFO with
positive-quantity CORRECTION logs when negative. -/
def correctStock (batches : List Batch) (aid : String) (actualStock : ℚ)
    (now : ℤ) (newId : ℕ) : Except String CorrectStockOutcome :=
  if actualStock < 0 then .error "actualStock must be a non-negative number"
  else
    let currentStock := stockOf aid batches
    let difference := actualStock - currentStock
    if difference = 0 then
      .ok ⟨batches, [], currentStock, actualStock, difference⟩
    else if 0 < difference then
      let newBatch : Batch :=
        { id := newId, articleId := aid, quantity := difference,
          initialQuantity := difference, purchaseDate := now }
      .ok ⟨batches ++ [newBatch],
           [{ articleId := aid, batchId := some newId, quantity := -difference,
              source := "CORRECTION" }],
           currentStock, actualStock, difference⟩
    else
      let r := fifoConsumeAll aid "CORRECTION" none batches (-difference)
      .ok ⟨r.batches, r.logs, currentStock, actualStock, difference⟩

/-- Error responses of `POST /batches/:id/consume`. -/
inductive BatchConsumeError where
  | validationFailed
  | notConvertible (fromSymbol toSymbol : String)
  | insufficientStock (available : ℚ)
  deriving Repr, DecidableEq

/-- Successful response of `POST /batches/:id/consume`: the updated batch,
the single log written in the same transaction, and the conversion report
when a different unit was supplied. -/
structure BatchConsumeOk where
  batch : Batch
  log : ConsumptionLog
  conversion : Option (ℚ × String × ℚ × String)
  deriving Repr, DecidableEq

/-- `POST /batches/:id/consume`: validate the quantity; convert it into the
article's default unit when a different truthy unit is supplied (hard
failure when not convertible); fail with the available quantity when the
converted quantity exceeds the batch's stock; otherwise decrement the batch
and write one log atomically. -/
def consumeFromBatch (units : List UnitData) (batch : Batch) (defaultUnit : String)
    (quantity : ℚ) (unit : Option String) (source : String := "MANUAL") :
    Except BatchConsumeError BatchConsumeOk :=
  if quantity ≤ 0 then .error .validationFailed
  else
    let go : ℚ → Option (ℚ × String × ℚ × String) → Except BatchConsumeError BatchConsumeOk :=
      fun quantityInDefaultUnit conversion =>
        if batch.quantity < quantityInDefaultUnit then
          .error (.insufficientStock batch.quantity)
        else
          .ok ⟨{ batch with quantity := batch.quantity - quantityInDefaultUnit },
               { articleId := batch.articleId, batchId := some batch.id,
                 quantity := quantityInDefaultUnit, source := source },
               conversion⟩
    match unit with
    | some u =>
      if truthyS u ∧ u ≠ defaultUnit then
        match convertQuantityBetweenUnits units quantity u defaultUnit with
        | none => .error (.notConvertible u defaultUnit)
        | some converted => go converted (some (quantity, u, converted, defaultUnit))
      else go quantity none
    | none => go quantity none

/-! ## Lemmas about the FIFO loop -/

theorem stockOf_nonneg (aid : String) (bs : List Batch) : 0 ≤ stockOf aid bs := by
  apply List.sum_nonneg
  intro q hq
  simp only [List.mem_map] at hq
  obtain ⟨b, hb, rfl⟩ := hq
  have hm := (List.mem_filter.mp hb).2
  simp only [batchMatch, decide_eq_true_eq] at hm
  exact le_of_lt hm.2

theorem stockOf_cons (aid : String) (b : Batch) (bs : List Batch) :
    stockOf aid (b :: bs)
      = (if batchMatch aid b then b.quantity else 0) + stockOf aid bs := by
  unfold stockOf
  cases hm : batchMatch aid b <;> simp [List.filter_cons, hm]

theorem articleStockAll_cons (aid : String) (b : Batch) (bs : List Batch) :
    articleStockAll aid (b :: bs)
      = (if b.articleId = aid then b.quantity else 0) + articleStockAll aid bs := by
  unfold articleStockAll
  by_cases hm : b.articleId = aid <;> simp [List.filter_cons, hm]

/-- When every row of an article is nonnegative, summing its positive rows
and summing all its rows agree. -/
theorem articleStockAll_eq_stockOf (aid : String) (bs : List Batch)
    (h : ∀ b ∈ bs, b.articleId = aid → 0 ≤ b.quantity) :
    articleStockAll aid bs = stockOf aid bs := by
  induction bs with
  | nil => rfl
  | cons b bs ih =>
    have hrest : ∀ x ∈ bs, x.articleId = aid → 0 ≤ x.quantity :=
      fun x hx => h x (List.mem_cons_of_mem _ hx)
    rw [articleStockAll_cons, stockOf_cons, ih hrest]
    by_cases ha : b.articleId = aid
    · by_cases hq : 0 < b.quantity
      · simp [ha, batchMatch, hq]
      · have h0 : b.quantity = 0 :=
          le_antisymm (not_lt.mp hq) (h b (List.mem_cons_self b bs) ha)
        simp [ha, batchMatch, hq, h0]
    · have : batchMatch aid b = false := by
        simp [batchMatch]
        intro hc
        exact absurd hc ha
      simp [ha, this]

/-- Unfolding: the loop stops when no quantity remains to consume. -/
theorem fifo_cons_stop (aid source : String) (rid : Option String)
    (b : Batch) (bs : List Batch) (rem : ℚ) (hrem : rem ≤ 0) :
    fifoConsumeAll aid source rid (b :: bs) rem = ⟨b :: bs, [], rem⟩ := by
  simp [fifoConsumeAll, hrem]

/-- Unfolding: a fetched batch (same article, positive stock) is consumed. -/
theorem fifo_cons_take (aid source : String) (rid : Option String)
    (b : Batch) (bs : List Batch) (rem : ℚ) (hrem : ¬rem ≤ 0)
    (hm : batchMatch aid b = true) :
    fifoConsumeAll aid source rid (b :: bs) rem =
      ⟨{ b with quantity := b.quantity - min b.quantity rem } ::
         (fifoConsumeAll aid source rid bs (rem - min b.quantity rem)).batches,
       { articleId := aid, batchId := some b.id, quantity := min b.quantity rem,
         source := source, recipeId := rid } ::
         (fifoConsumeAll aid source rid bs (rem - min b.quantity rem)).logs,
       (fifoConsumeAll aid source rid bs (rem - min b.quantity rem)).remaining⟩ := by
  simp [fifoConsumeAll, hrem, hm]

/-- Unfolding: a row of another article or without positive stock is skipped. -/
theorem fifo_cons_skip (aid source : String) (rid : Option String)
    (b : Batch) (bs : List Batch) (rem : ℚ) (hrem : ¬rem ≤ 0)
    (hm : batchMatch aid b = false) :
    fifoConsumeAll aid source rid (b :: bs) rem =
      ⟨b :: (fifoConsumeAll aid source rid bs rem).batches,
       (fifoConsumeAll aid source rid bs rem).logs,
       (fifoConsumeAll aid source rid bs rem).remaining⟩ := by
  simp [fifoConsumeAll, hrem, hm]

theorem fifo_remaining (aid source : String) (rid : Option String)
    (bs : List Batch) (rem : ℚ) (h : 0 ≤ rem) :
    (fifoConsumeAll aid source rid bs rem).remaining = max (rem - stockOf aid bs) 0 := by
  induction bs generalizing rem with
  | nil =>
    simp [fifoConsumeAll, stockOf, max_eq_left h]
  | cons b bs ih =>
    by_cases hrem : rem ≤ 0
    · have h0 : rem = 0 := le_antisymm hrem h
      subst h0
      have hs : (0 : ℚ) - stockOf aid (b :: bs) ≤ 0 := by
        have := stockOf_nonneg aid (b :: bs)
        linarith
      rw [fifo_cons_stop aid source rid b bs 0 le_rfl, max_eq_right hs]
    · cases hm : batchMatch aid b with
      | true =>
        have hmin : min b.quantity rem ≤ rem := min_le_right _ _
        have hrec := ih (rem - min b.quantity rem) (by linarith)
        rw [fifo_cons_take aid source rid b bs rem hrem hm]
        rw [stockOf_cons]
        simp only [hm, if_true]
        rw [hrec]
        rcases le_total b.quantity rem with hc | hc
        · rw [min_eq_left hc]
          ring_nf
        · rw [min_eq_right hc]
          have h1 : rem - rem - stockOf aid bs ≤ 0 := by
            have := stockOf_nonneg aid bs
            linarith
          have h2 : rem - (b.quantity + stockOf aid bs) ≤ 0 := by
            have := stockOf_nonneg aid bs
            linarith
          rw [max_eq_right h1, max_eq_right h2]
      | false =>
        have hrec := ih rem h
        rw [fifo_cons_skip aid source rid b bs rem hrem hm]
        rw [stockOf_cons]
        simp only [hm, Bool.false_eq_true, if_false]
        rw [hrec]
        ring_nf

theorem fifo_log_fields (aid source : String) (rid : Option String)
    (bs : List Batch) (rem : ℚ) :
    ∀ l ∈ (fifoConsumeAll aid source rid bs rem).logs,
      l.articleId = aid ∧ l.source = source ∧ l.recipeId = rid := by
  induction bs generalizing rem with
  | nil => simp [fifoConsumeAll]
  | cons b bs ih =>
    by_cases hrem : rem ≤ 0
    · simp [fifoConsumeAll, hrem]
    · cases hm : batchMatch aid b with
      | true =>
        simp only [fifoConsumeAll, if_neg hrem, hm, if_true]
        intro l hl
        rcases List.mem_cons.mp hl with h1 | h1
        · subst h1; exact ⟨rfl, rfl, rfl⟩
        · exact ih _ l h1
      | false =>
        simp only [fifoConsumeAll, if_neg hrem, hm]
        exact ih rem

theorem fifo_logs_pos (aid source : String) (rid : Option String)
    (bs : List Batch) (rem : ℚ) (h : 0 ≤ rem) :
    ∀ l ∈ (fifoConsumeAll aid source rid bs rem).logs, 0 < l.quantity := by
  induction bs generalizing rem with
  | nil => simp [fifoConsumeAll]
  | cons b bs ih =>
    by_cases hrem : rem ≤ 0
    · simp [fifoConsumeAll, hrem]
    · cases hm : batchMatch aid b with
      | true =>
        have hq : 0 < b.quantity := by
          have := hm
          simp only [batchMatch, decide_eq_true_eq] at this
          exact this.2
        have hr : 0 < rem := lt_of_not_le hrem
        simp only [fifoConsumeAll, if_neg hrem, hm, if_true]
        intro l hl
        rcases List.mem_cons.mp hl with h1 | h1
        · subst h1; exact lt_min hq hr
        · exact ih (rem - min b.quantity rem)
            (by have := min_le_right b.quantity rem; linarith) l h1
      | false =>
        simp only [fifoConsumeAll, if_neg hrem, hm]
        exact ih rem h

theorem fifo_logs_sum (aid source : String) (rid : Option String)
    (bs : List Batch) (rem : ℚ) (h : 0 ≤ rem) :
    ((fifoConsumeAll aid source rid bs rem).logs.map (·.quantity)).sum
      = rem - (fifoConsumeAll aid source rid bs rem).remaining := by
  induction bs generalizing rem with
  | nil => simp [fifoConsumeAll]
  | cons b bs ih =>
    by_cases hrem : rem ≤ 0
    · simp [fifoConsumeAll, hrem]
    · cases hm : batchMatch aid b with
      | true =>
        have hmin : min b.quantity rem ≤ rem := min_le_right _ _
        have hrec := ih (rem - min b.quantity rem) (by linarith)
        simp only [fifoConsumeAll, if_neg hrem, hm, if_true, List.map_cons, List.sum_cons]
        rw [hrec]
        ring
      | false =>
        simp only [fifoConsumeAll, if_neg hrem, hm]
        exact ih rem h

theorem fifo_batches_nonneg (aid source : String) (rid : Option String)
    (bs : List Batch) (rem : ℚ) (h : ∀ b ∈ bs, 0 ≤ b.quantity) :
    ∀ b ∈ (fifoConsumeAll aid source rid bs rem).batches, 0 ≤ b.quantity := by
  induction bs generalizing rem with
  | nil => simp [fifoConsumeAll]
  | cons b bs ih =>
    have hhead : 0 ≤ b.quantity := h b (List.mem_cons_self b bs)
    have hrest : ∀ x ∈ bs, 0 ≤ x.quantity := fun x hx => h x (List.mem_cons_of_mem _ hx)
    by_cases hrem : rem ≤ 0
    · simpa [fifoConsumeAll, hrem] using h
    · cases hm : batchMatch aid b with
      | true =>
        simp only [fifoConsumeAll, if_neg hrem, hm, if_true]
        intro x hx
        rcases List.mem_cons.mp hx with h1 | h1
        · subst h1
          have := min_le_left b.quantity rem
          simp only []
          linarith
        · exact ih _ hrest x h1
      | false =>
        simp only [fifoConsumeAll, if_neg hrem, hm]
        intro x hx
        rcases List.mem_cons.mp hx with h1 | h1
        · subst h1; exact hhead
        · exact ih rem hrest x h1

theorem fifo_stock_conservation (aid source : String) (rid : Option String)
    (bs : List Batch) (rem : ℚ) :
    articleStockAll aid (fifoConsumeAll aid source rid bs rem).batches
      = articleStockAll aid bs - (rem - (fifoConsumeAll aid source rid bs rem).remaining) := by
  induction bs generalizing rem with
  | nil => simp [fifoConsumeAll]
  | cons b bs ih =>
    by_cases hrem : rem ≤ 0
    · rw [fifo_cons_stop aid source rid b bs rem hrem]
      ring_nf
    · cases hm : batchMatch aid b with
      | true =>
        have ha : b.articleId = aid := by
          have := hm
          simp only [batchMatch, decide_eq_true_eq] at this
          exact this.1
        have hrec := ih (rem - min b.quantity rem)
        rw [fifo_cons_take aid source rid b bs rem hrem hm]
        simp only []
        rw [articleStockAll_cons, articleStockAll_cons]
        simp only [ha, if_true]
        rw [hrec]
        ring
      | false =>
        have hrec := ih rem
        rw [fifo_cons_skip aid source rid b bs rem hrem hm]
        simp only []
        rw [articleStockAll_cons, articleStockAll_cons, hrec]
        ring

/-! ## Articles, recipes and `POST /recipes/:id/cook` (`recipes.ts`) -/

/-- The `Article` fields consumed by cooking and shopping-list generation. -/
structure Article where
  id : String
  name : String
  defaultUnit : String
  category : Option String := none
  packageSize : ℚ := 1
  packageUnit : String := "pcs"
  minStock : Option ℚ := none
  deriving Repr, DecidableEq

/-- A `RecipeIngredient` row: either a specific article reference or a
free-text category match, with a quantity and unit. -/
structure Ingredient where
  id : String
  articleId : Option String := none
  categoryMatch : Option String := none
  quantity : ℚ
  unit : String
  isOptional : Bool := false
  deriving Repr, DecidableEq

/-- A `Recipe` row with its ingredient rows. -/
structure Recipe where
  name : String
  servings : ℚ
  ingredients : List Ingredient
  deriving Repr, DecidableEq

/-- One entry of the cook handler's `missingIngredients` report (the code
pushes ad-hoc object shapes; optional fields absent in a shape are `none`).
`convError` carries the `error` string of the unconvertible-unit shape. -/
structure MissingIngredient where
  articleId : Option String := none
  name : String
  needed : ℚ
  available : Option ℚ := none
  unit : String
  convError : Option String := none
  deriving Repr, DecidableEq

/-- One entry of the cook handler's `consumptionResults`. -/
structure ConsumedIngredient where
  articleId : String
  name : String
  consumed : ℚ
  unit : String
  originalQuantity : ℚ
  originalUnit : String
  deriving Repr, DecidableEq

/-- The loop state of the cook handler: the (already partially updated)
batch store plus the two report lists, appended in processing order. -/
structure CookState where
  batches : List Batch
  consumed : List ConsumedIngredient
  missing : List MissingIngredient
  deriving Repr, DecidableEq

/-- `article.batches.some(quantity > 0)` against the current store. -/
def hasStock (batches : List Batch) (aid : String) : Bool :=
  batches.any (batchMatch aid)

/-- Article resolution of one ingredient inside the cook loop: a truthy
`articleId` resolves by id (its hydrated `ing.article`); otherwise a truthy
`categoryMatch` resolves to the first article of that category that has
stock in the *current* store; otherwise unresolved. -/
def resolveCookArticle (articles : List Article) (batches : List Batch)
    (ing : Ingredient) : Option Article :=
  if truthyStr ing.articleId then
    match ing.articleId with
    | some aid => articles.find? (fun a => a.id = aid)
    | none => none
  else if truthyStr ing.categoryMatch then
    articles.find? (fun (a : Article) => a.category = ing.categoryMatch ∧ hasStock batches a.id)
  else
    none

/-- The display name for an unresolved ingredient:
`ing.article?.name || ing.categoryMatch || 'Unknown'`. -/
def unresolvedName (articles : List Article) (ing : Ingredient) : String :=
  let hydrated : Option Article := match ing.articleId with
    | some aid => articles.find? (fun a => a.id = aid)
    | none => none
  (jsOrStr (jsOrStr (hydrated.map (fun (a : Article) => a.name)) ing.categoryMatch) (some "Unknown")).getD "Unknown"

/-- One iteration of the cook loop over a non-optional ingredient: resolve
the article, convert the scaled quantity into the article's default unit
(report and skip on failure), check total stock (report and skip on
shortfall), otherwise consume FIFO immediately — the store mutation is NOT
deferred to the end of the loop. -/
def cookStep (units : List UnitData) (articles : List Article)
    (recipeId : String) (mult : ℚ) (st : CookState) (ing : Ingredient) : CookState :=
  let recipeQuantity := ing.quantity * mult
  match resolveCookArticle articles st.batches ing with
  | none =>
    { st with missing := st.missing ++
        [{ name := unresolvedName articles ing, needed := recipeQuantity,
           unit := ing.unit }] }
  | some article =>
    let aid := article.id
    let recipeUnit := ing.unit
    let articleUnit := article.defaultUnit
    let consumePhase : ℚ → CookState := fun neededQuantity =>
      let totalStock := stockOf aid st.batches
      if totalStock < neededQuantity then
        { st with missing := st.missing ++
            [{ articleId := some aid, name := article.name, needed := neededQuantity,
               available := some totalStock, unit := articleUnit }] }
      else
        let r := fifoConsumeAll aid "RECIPE" (some recipeId) st.batches neededQuantity
        { batches := r.batches,
          consumed := st.consumed ++
            [{ articleId := aid, name := article.name, consumed := neededQuantity,
               unit := articleUnit, originalQuantity := recipeQuantity,
               originalUnit := recipeUnit }],
          missing := st.missing }
    if recipeUnit ≠ articleUnit then
      match convertQuantityBetweenUnits units recipeQuantity recipeUnit articleUnit with
      | none =>
        { st with missing := st.missing ++
            [{ articleId := some aid, name := article.name, needed := recipeQuantity,
               unit := recipeUnit,
               convError := some ("Cannot convert " ++ recipeUnit ++ " to " ++ articleUnit) }] }
      | some converted => consumePhase converted
    else
      consumePhase recipeQuantity

/-- The response of `POST /recipes/:id/cook`: success iff no ingredient was
reported missing; on failure the handler returns HTTP 400 carrying both the
`missing` report and the `consumed` results of the ingredients it already
consumed. -/
structure CookOutcome where
  success : Bool
  consumed : List ConsumedIngredient
  missing : List MissingIngredient
  batches : List Batch
  deriving Repr, DecidableEq

/-- `POST /recipes/:id/cook`: scale by `servings / recipe.servings` (1 when
`servings` is absent or falsy), iterate the non-optional ingredients with
`cookStep`, and report failure iff `missing` is nonempty. -/
def cookRecipe (units : List UnitData) (articles : List Article) (batches : List Batch)
    (recipeId : String) (recipe : Recipe) (servings : Option ℚ) : CookOutcome :=
  let mult := match servings with
    | some s => if s = 0 then 1 else s / recipe.servings
    | none => 1
  let nonOptional := recipe.ingredients.filter (fun i => !i.isOptional)
  let final := nonOptional.foldl (cookStep units articles recipeId mult) ⟨batches, [], []⟩
  { success := final.missing.isEmpty, consumed := final.consumed,
    missing := final.missing, batches := final.batches }

/-! ## Shopping-list generation (`shopping.ts`, `POST /shopping-lists/generate`)

Steps 1-6 and 8 of the handler are modelled; step 7 (estimated prices from
purchase history) affects neither quantities nor pack counts and is omitted
from the generated line items.  The consumption forecast
(`getForecastedShoppingItems`) is an input: its per-article recommended
purchase quantities are passed in as fetched. -/

/-- A meal-plan entry fetched for the generation window
(`completedAt = null`, date in range), with its hydrated recipe. -/
structure MealEntry where
  servings : ℚ
  recipe : Recipe
  deriving Repr, DecidableEq

/-- One value of the `requiredIngredients` map. -/
structure ReqIngredient where
  articleId : Option String
  articleName : Option String
  categoryMatch : Option String
  unit : String
  totalQuantity : ℚ
  reason : String
  deriving Repr, DecidableEq

/-- One element returned by `getForecastedShoppingItems`. -/
structure ForecastItem where
  articleId : String
  quantity : ℚ
  unit : String
  deriving Repr, DecidableEq

/-- `ing.articleId || ing.categoryMatch || ("unknown-" + ing.id)`: the
`requiredIngredients` map key of an ingredient. -/
def reqKey (ing : Ingredient) : String :=
  (jsOrStr (jsOrStr ing.articleId ing.categoryMatch)
    (some ("unknown-" ++ ing.id))).getD ""

/-- The hydrated `ing.article` of an ingredient. -/
def ingArticle (articles : List Article) (ing : Ingredient) : Option Article :=
  ing.articleId.bind (fun aid => articles.find? (fun a => a.id = aid))

/-- The needed quantity and target unit of one scaled recipe ingredient:
convert into the hydrated article's (truthy) default unit when it differs;
on conversion failure keep the original quantity and unit. -/
def reqQuantityUnit (units : List UnitData) (articles : List Article)
    (ing : Ingredient) (mult : ℚ) : ℚ × String :=
  let base := ing.quantity * mult
  match ingArticle articles ing with
  | some a =>
    if truthyS a.defaultUnit ∧ ing.unit ≠ a.defaultUnit then
      match convertQuantityBetweenUnits units base ing.unit a.defaultUnit with
      | some c => (c, a.defaultUnit)
      | none => (base, ing.unit)
    else if truthyS a.defaultUnit then (base, a.defaultUnit)
    else (base, ing.unit)
  | none => (base, ing.unit)

/-- Insertion-ordered map update: add the converted quantity to an existing
entry under the same key, else append a fresh entry. -/
def upsertReq (m : List (String × ReqIngredient)) (k : String)
    (q : ℚ) (entry : ReqIngredient) : List (String × ReqIngredient) :=
  match m with
  | [] => [(k, entry)]
  | (k', r) :: rest =>
    if k' = k then (k', { r with totalQuantity := r.totalQuantity + q }) :: rest
    else (k', r) :: upsertReq rest k q entry

/-- Processing of one ingredient of one meal entry into `requiredIngredients`. -/
def reqStep (units : List UnitData) (articles : List Article) (mult : ℚ)
    (m : List (String × ReqIngredient)) (ing : Ingredient) :
    List (String × ReqIngredient) :=
  let qu := reqQuantityUnit units articles ing mult
  upsertReq m (reqKey ing) qu.1
    { articleId := ing.articleId,
      articleName := jsOrStr ((ingArticle articles ing).map (fun a => a.name)) none,
      categoryMatch := ing.categoryMatch,
      unit := qu.2, totalQuantity := qu.1, reason := "RECIPE" }

/-- Step 2: fold all ingredients of all fetched meal entries (optional ones
included — the generation fetch does not filter on `isOptional`) into the
`requiredIngredients` map, scaling by `entry.servings / recipe.servings`. -/
def buildReqs (units : List UnitData) (articles : List Article)
    (mealEntries : List MealEntry) : List (String × ReqIngredient) :=
  mealEntries.foldl (fun m e =>
    e.recipe.ingredients.foldl (reqStep units articles (e.servings / e.recipe.servings)) m) []

/-- The package metadata stored in `packageInfoMap`. -/
structure PkgInfo where
  packageSize : ℚ
  packageUnit : String
  defaultUnit : String
  deriving Repr, DecidableEq

/-- Assoc-list lookup (JS `Map.get`). -/
def alookup {α : Type} (m : List (String × α)) (k : String) : Option α :=
  (m.find? (fun p => p.1 = k)).map (·.2)

/-- The non-null `articleId`s of the `requiredIngredients` values. -/
def reqArticleIds (reqs : List (String × ReqIngredient)) : List String :=
  reqs.filterMap (fun p => p.2.articleId)

/-- Step 3: stock per required article (`sum of batches with quantity > 0`). -/
def baseStockMap (articles : List Article) (batches : List Batch)
    (ids : List String) : List (String × ℚ) :=
  (articles.filter (fun a => a.id ∈ ids)).map (fun a => (a.id, stockOf a.id batches))

/-- Step 3: package info per required article. -/
def basePkgMap (articles : List Article) (ids : List String) :
    List (String × PkgInfo) :=
  (articles.filter (fun a => a.id ∈ ids)).map
    (fun a => (a.id, ⟨a.packageSize, a.packageUnit, a.defaultUnit⟩))

/-- The articles fetched in step 5 (`minStock: { not: null }`). -/
def articlesWithMinStock (articles : List Article) : List Article :=
  articles.filter (fun a => a.minStock ≠ none)

/-- Step 5: for every article with a truthy `minStock`, record it in
`minStockMap` and backfill `stockMap`/`packageInfoMap` when absent. -/
def extendMaps (batches : List Batch) :
    List Article → List (String × ℚ) → List (String × PkgInfo) → List (String × ℚ) →
    List (String × ℚ) × List (String × PkgInfo) × List (String × ℚ)
  | [], stockMap, pkgMap, minMap => (stockMap, pkgMap, minMap)
  | a :: rest, stockMap, pkgMap, minMap =>
    match a.minStock with
    | some mval =>
      if mval ≠ 0 then
        extendMaps batches rest
          (if (alookup stockMap a.id).isSome then stockMap
           else stockMap ++ [(a.id, stockOf a.id batches)])
          (if (alookup pkgMap a.id).isSome then pkgMap
           else pkgMap ++ [(a.id, ⟨a.packageSize, a.packageUnit, a.defaultUnit⟩)])
          (minMap ++ [(a.id, mval)])
      else extendMaps batches rest stockMap pkgMap minMap
    | none => extendMaps batches rest stockMap pkgMap minMap

/-- `calculateRecommendedPacks(articleId, neededQuantity, neededUnit)`:
fall back to one pack when no truthy article id is given, when the package
map has no entry for it, when the package size is not positive, or when the
package unit cannot be converted into the need's unit; otherwise
`Math.ceil(neededQuantity / packageSizeInNeededUnit)`. -/
def calculateRecommendedPacks (pkgMap : List (String × PkgInfo))
    (units : List UnitData) (articleId : Option String)
    (neededQuantity : ℚ) (neededUnit : String) : ℤ :=
  match articleId with
  | none => 1
  | some aid =>
    if aid = "" then 1
    else
      match alookup pkgMap aid with
      | none => 1
      | some p =>
        if p.packageSize ≤ 0 then 1
        else
          match (if p.packageUnit ≠ neededUnit then
                   convertQuantityBetweenUnits units p.packageSize p.packageUnit neededUnit
                 else some p.packageSize) with
          | none => 1
          | some sz => ⌈neededQuantity / sz⌉

/-- One created `ShoppingListItem` row of the generator (estimated price
omitted, see the section comment). -/
structure GenItem where
  articleId : Option String
  customName : Option String
  neededQuantity : ℚ
  recommendedPacks : ℤ
  reason : String
  deriving Repr, DecidableEq

/-- `articleId ? (map.get(articleId) || 0) : 0`. -/
def lookupOr0 (m : List (String × ℚ)) (aid : Option String) : ℚ :=
  match aid with
  | some a => if a = "" then 0 else (alookup m a).getD 0
  | none => 0

/-- `forecastMap.get` with JS `Map.set` semantics (the last forecast entry
for an article id wins). -/
def forecastLookup (items : List ForecastItem) (a : String) : Option ℚ :=
  (items.reverse.find? (fun fi => fi.articleId = a)).map (·.quantity)

/-- `articleId ? (forecastMap.get(articleId) || 0) : 0`. -/
def forecastOr0 (items : List ForecastItem) (aid : Option String) : ℚ :=
  match aid with
  | some a => if a = "" then 0 else (forecastLookup items a).getD 0
  | none => 0

/-- Step 6, first pass (recipe-covered lines): net need
`recipe + forecast + minStock - stock` rounded to 4 decimals; a line is
created only for a strictly positive total, stored rounded to 2 decimals;
every truthy article id is marked processed whether or not a line was
created. -/
def processReqs (stockMap minMap : List (String × ℚ))
    (pkgMap : List (String × PkgInfo)) (units : List UnitData)
    (forecastItems : List ForecastItem) :
    List (String × ReqIngredient) → List String → List GenItem × List String
  | [], processed => ([], processed)
  | (_, req) :: rest, processed =>
    let currentStock := lookupOr0 stockMap req.articleId
    let minStock := lookupOr0 minMap req.articleId
    let forecastedNeed := forecastOr0 forecastItems req.articleId
    let totalNeed := round4 (req.totalQuantity + forecastedNeed + minStock - currentStock)
    let newItems : List GenItem :=
      if 0 < totalNeed then
        [{ articleId := req.articleId,
           customName := jsOrStr req.articleName req.categoryMatch,
           neededQuantity := round2 totalNeed,
           recommendedPacks :=
             calculateRecommendedPacks pkgMap units req.articleId totalNeed req.unit,
           reason := req.reason }]
      else []
    let processed' := match req.articleId with
      | some a => if a = "" then processed else a :: processed
      | none => processed
    let r := processReqs stockMap minMap pkgMap units forecastItems rest processed'
    (newItems ++ r.1, r.2)

/-- `packageInfoMap.get(articleId)?.defaultUnit || 'pcs'`: the unit a
forecast-only line is expressed in. -/
def forecastUnit (pkgMap : List (String × PkgInfo)) (aid : String) : String :=
  match alookup pkgMap aid with
  | some p => if truthyS p.defaultUnit then p.defaultUnit else "pcs"
  | none => "pcs"

/-- Step 6, second pass (forecast-only lines): skip already processed
articles; net need `forecast + minStock - stock`; mark processed before the
next element so duplicated forecast ids cannot double count. -/
def processForecast (stockMap minMap : List (String × ℚ))
    (pkgMap : List (String × PkgInfo)) (units : List UnitData) :
    List ForecastItem → List String → List GenItem × List String
  | [], processed => ([], processed)
  | fi :: rest, processed =>
    if fi.articleId ∈ processed then
      processForecast stockMap minMap pkgMap units rest processed
    else
      let currentStock := (alookup stockMap fi.articleId).getD 0
      let minStock := (alookup minMap fi.articleId).getD 0
      let unit := forecastUnit pkgMap fi.articleId
      let totalNeed := round4 (fi.quantity + minStock - currentStock)
      let newItems : List GenItem :=
        if 0 < totalNeed then
          [{ articleId := some fi.articleId, customName := none,
             neededQuantity := round2 totalNeed,
             recommendedPacks :=
               calculateRecommendedPacks pkgMap units (some fi.articleId) totalNeed unit,
             reason := "FORECAST" }]
        else []
      let r := processForecast stockMap minMap pkgMap units rest (fi.articleId :: processed)
      (newItems ++ r.1, r.2)

/-- Step 6, third pass (low-stock-only lines): skip already processed
articles; a line is created when the article has a truthy `minStock`
strictly above its current stock, for the unrounded difference rounded to
4 then stored at 2 decimals. -/
def processLowStock (batches : List Batch) (pkgMap : List (String × PkgInfo))
    (units : List UnitData) :
    List Article → List String → List GenItem
  | [], _ => []
  | a :: rest, processed =>
    if a.id ∈ processed then processLowStock batches pkgMap units rest processed
    else
      let totalStock := stockOf a.id batches
      match a.minStock with
      | some mval =>
        if mval ≠ 0 ∧ totalStock < mval then
          { articleId := some a.id, customName := none,
            neededQuantity := round2 (round4 (mval - totalStock)),
            recommendedPacks :=
              calculateRecommendedPacks pkgMap units (some a.id)
                (round4 (mval - totalStock)) a.defaultUnit,
            reason := "LOW_STOCK" } :: processLowStock batches pkgMap units rest processed
        else processLowStock batches pkgMap units rest processed
      | none => processLowStock batches pkgMap units rest processed

/-- Steps 3 and 5 together: the stock, package-info and minStock maps as
seen by the three passes. -/
def genMaps (articles : List Article) (batches : List Batch)
    (reqs : List (String × ReqIngredient)) :
    List (String × ℚ) × List (String × PkgInfo) × List (String × ℚ) :=
  extendMaps batches (articlesWithMinStock articles)
    (baseStockMap articles batches (reqArticleIds reqs))
    (basePkgMap articles (reqArticleIds reqs)) []

/-- The full generation pipeline: build `requiredIngredients`, build the
stock/package/minStock maps, then run the three passes in order.  The
created rows are the concatenation of the three passes' lines. -/
def generateShoppingItems (units : List UnitData) (articles : List Article)
    (batches : List Batch) (mealEntries : List MealEntry)
    (forecastItems : List ForecastItem) : List GenItem :=
  let reqs := buildReqs units articles mealEntries
  let maps := genMaps articles batches reqs
  let pass1 := processReqs maps.1 maps.2.2 maps.2.1 units forecastItems reqs []
  let pass2 := processForecast maps.1 maps.2.2 maps.2.1 units forecastItems pass1.2
  let pass3 := processLowStock batches maps.2.1 units (articlesWithMinStock articles) pass2.2
  pass1.1 ++ pass2.1 ++ pass3

/-! ## Manual item addition and list completion (`shopping.ts`) -/

/-- The validated body of `POST /shopping-lists/:id/items` (`AddItemSchema`):
`quantity` must be strictly positive. -/
structure AddItemInput where
  articleId : Option String := none
  customName : Option String := none
  quantity : ℚ
  unit : String := "pcs"
  reason : String := "MANUAL"
  estimatedPrice : Option ℚ := none
  deriving Repr, DecidableEq

/-- The `ShoppingListItem` row created by the manual add-item operation. -/
structure CreatedItem where
  articleId : Option String
  customName : Option String
  neededQuantity : ℚ
  reason : String
  estimatedPrice : Option ℚ
  deriving Repr, DecidableEq

/-- `POST /shopping-lists/:id/items`: schema validation rejects a
non-positive quantity; the created row stores `neededQuantity = quantity`. -/
def addShoppingItem (inp : AddItemInput) : Except String CreatedItem :=
  if inp.quantity ≤ 0 then .error "Validation failed"
  else .ok { articleId := inp.articleId, customName := inp.customName,
             neededQuantity := inp.quantity, reason := inp.reason,
             estimatedPrice := inp.estimatedPrice }

/-- A `ShoppingListItem` row as read by list completion. -/
structure SLItem where
  articleId : Option String := none
  customName : Option String := none
  neededQuantity : ℚ
  recommendedPacks : ℤ := 1
  isPurchased : Bool := false
  purchasedQuantity : Option ℚ := none
  estimatedPrice : Option ℚ := none
  actualPrice : Option ℚ := none
  purchaseDate : Option ℤ := none
  expiryDate : Option ℤ := none
  deriving Repr, DecidableEq

/-- The data of a `Batch` row created by list completion. -/
structure NewBatchData where
  articleId : String
  quantity : ℚ
  initialQuantity : ℚ
  purchaseDate : ℤ
  purchasePrice : Option ℚ
  expiryDate : Option ℤ
  deriving Repr, DecidableEq

/-- `POST /shopping-lists/:id/complete`: reject an already completed list
before creating anything; otherwise create one batch per purchased item
with a non-null article id, with `quantity = initialQuantity =
purchasedQuantity || neededQuantity` and `purchasePrice = actualPrice ||
estimatedPrice` (JS `||`, so a zero value falls through), and the item's
recorded `expiryDate`. -/
def completeShoppingList (completedAt : Option ℤ) (items : List SLItem)
    (now : ℤ) : Except String (List NewBatchData) :=
  if completedAt.isSome then .error "Shopping list already completed"
  else
    .ok ((items.filter (fun i => i.isPurchased ∧ i.articleId ≠ none)).filterMap
      (fun i =>
        match i.articleId with
        | none => none
        | some aid => some
          { articleId := aid,
            quantity := jsOrQ i.purchasedQuantity i.neededQuantity,
            initialQuantity := jsOrQ i.purchasedQuantity i.neededQuantity,
            purchaseDate := i.purchaseDate.getD now,
            purchasePrice := jsOrQQ i.actualPrice i.estimatedPrice,
            expiryDate := i.expiryDate }))

/-! ## Claim C5: the conversion rule chain -/

/-- Two units sharing the representable-but-degenerate empty-string
conversion group. -/
def unitEmptyGroupA : UnitData :=
  { symbol := "eA", conversionGroup := some "", conversionFactor := 1 }

def unitEmptyGroupB : UnitData :=
  { symbol := "eB", conversionGroup := some "", conversionFactor := 2 }

/-- C5 counterexample: two distinct units whose `conversionGroup` is the
non-null empty string share a non-null conversion group, yet `convertUnits`
returns the not-convertible sentinel instead of
`quantity * fromFactor / toFactor`, because the JS truthiness guard
`fromUnit.conversionGroup && ...` treats `""` as falsy. -/
theorem convertUnits_empty_group_counterexample :
    unitEmptyGroupA.conversionGroup = unitEmptyGroupB.conversionGroup ∧
    unitEmptyGroupA.conversionGroup ≠ none ∧
    unitEmptyGroupA.symbol ≠ unitEmptyGroupB.symbol ∧
    convertUnits 1 unitEmptyGroupA unitEmptyGroupB = none := by
  refine ⟨rfl, by simp [unitEmptyGroupA], by simp [unitEmptyGroupA, unitEmptyGroupB], ?_⟩
  simp [convertUnits, unitEmptyGroupA, unitEmptyGroupB, truthyStr, truthyQ, edgeMatches]

/-- C5 (amended: rule 2 requires the shared conversion group to be non-null
*and non-empty*, since the code tests it for JS truthiness):
`convertUnits` applies exactly these rules in order with first match —
(1) same symbol → identity; (2) shared non-null non-empty group →
`quantity * fromFactor / toFactor`; (3) custom edge on `fromUnit` targeting
`toUnit` → `quantity * convertsToAmount`; (4) custom edge on `toUnit`
targeting `fromUnit` → `quantity / convertsToAmount`; (5) otherwise the
not-convertible sentinel `none`; consequently kg→g with factors 1000/1
gives 2000 and a Roll→Sheet edge of 50 gives 100 resp. back 2. -/
theorem convertUnits_claimed_rules (q : ℚ) (fu tu : UnitData) :
    (fu.symbol = tu.symbol → convertUnits q fu tu = some q) ∧
    (∀ g : String, fu.symbol ≠ tu.symbol → g ≠ "" →
      fu.conversionGroup = some g → tu.conversionGroup = some g →
      convertUnits q fu tu = some (q * fu.conversionFactor / tu.conversionFactor)) ∧
    (fu.symbol ≠ tu.symbol →
      ¬(truthyStr fu.conversionGroup = true ∧ fu.conversionGroup = tu.conversionGroup) →
      truthyStr fu.convertsToUnitId = true → truthyQ fu.convertsToAmount = true →
      edgeMatches fu.convertsToUnitSymbol fu.convertsToUnitId tu = true →
      convertUnits q fu tu = some (q * fu.convertsToAmount.getD 0)) ∧
    (fu.symbol ≠ tu.symbol →
      ¬(truthyStr fu.conversionGroup = true ∧ fu.conversionGroup = tu.conversionGroup) →
      ¬(truthyStr fu.convertsToUnitId = true ∧ truthyQ fu.convertsToAmount = true ∧
        edgeMatches fu.convertsToUnitSymbol fu.convertsToUnitId tu = true) →
      truthyStr tu.convertsToUnitId = true → truthyQ tu.convertsToAmount = true →
      edgeMatches tu.convertsToUnitSymbol tu.convertsToUnitId fu = true →
      convertUnits q fu tu = some (q / tu.convertsToAmount.getD 0)) ∧
    (fu.symbol ≠ tu.symbol →
      ¬(truthyStr fu.conversionGroup = true ∧ fu.conversionGroup = tu.conversionGroup) →
      ¬(truthyStr fu.convertsToUnitId = true ∧ truthyQ fu.convertsToAmount = true ∧
        edgeMatches fu.convertsToUnitSymbol fu.convertsToUnitId tu = true) →
      ¬(truthyStr tu.convertsToUnitId = true ∧ truthyQ tu.convertsToAmount = true ∧
        edgeMatches tu.convertsToUnitSymbol tu.convertsToUnitId fu = true) →
      convertUnits q fu tu = none) ∧
    convertUnits 2 unitKg unitG = some 2000 ∧
    convertUnits 2 unitRoll unitSheet = some 100 ∧
    convertUnits 100 unitSheet unitRoll = some 2 := by
  refine ⟨?_, ?_, ?_, ?_, ?_, ?_, ?_, ?_⟩
  · intro hs
    simp [convertUnits, hs]
  · intro g hs hg hf ht
    have hcond : truthyStr fu.conversionGroup = true ∧
        fu.conversionGroup = tu.conversionGroup := by
      constructor
      · simp [truthyStr, hf, hg]
      · rw [hf, ht]
    unfold convertUnits
    rw [if_neg hs, if_pos hcond]
  · intro hs hg h1 h2 h3
    unfold convertUnits
    rw [if_neg hs, if_neg hg, if_pos ⟨h1, h2, h3⟩]
  · intro hs hg he h1 h2 h3
    unfold convertUnits
    rw [if_neg hs, if_neg hg, if_neg he, if_pos ⟨h1, h2, h3⟩]
  · intro hs hg he1 he2
    unfold convertUnits
    rw [if_neg hs, if_neg hg, if_neg he1, if_neg he2]
  · simp [convertUnits, unitKg, unitG, truthyStr]; norm_num
  · simp [convertUnits, unitRoll, unitSheet, truthyStr, truthyQ, edgeMatches]; norm_num
  · simp [convertUnits, unitSheet, unitRoll, truthyStr, truthyQ, edgeMatches]; norm_num

/-- Witness for the amended C5 rules: rule 2 applied to the seeded kg→g pair. -/
theorem convertUnits_claimed_rules_witness :
    convertUnits 2 unitKg unitG
      = some (2 * unitKg.conversionFactor / unitG.conversionFactor) :=
  (convertUnits_claimed_rules 2 unitKg unitG).2.1 "mass"
    (by simp [unitKg, unitG]) (by simp) rfl rfl

/-! ## Claim C7: direct batch consumption guards -/

/-- C7 (confirmed): `consumeFromBatch` rejects an unconvertible supplied
unit outright, fails with the available quantity when the converted
quantity exceeds the batch's remaining stock — in both cases before any
batch decrement or log write (in the handler all checks precede the write
transaction; the embedding returns updated rows only in the `.ok` case) —
and otherwise decrements the batch by exactly the converted quantity with
one log in the same transaction. -/
theorem consumeFromBatch_rejects_invalid (units : List UnitData) (batch : Batch)
    (defaultUnit : String) (quantity : ℚ) (u : String) (source : String)
    (hq : 0 < quantity) :
    (u ≠ "" → u ≠ defaultUnit →
      convertQuantityBetweenUnits units quantity u defaultUnit = none →
      consumeFromBatch units batch defaultUnit quantity (some u) source
        = .error (.notConvertible u defaultUnit)) ∧
    (∀ converted, u ≠ "" → u ≠ defaultUnit →
      convertQuantityBetweenUnits units quantity u defaultUnit = some converted →
      batch.quantity < converted →
      consumeFromBatch units batch defaultUnit quantity (some u) source
        = .error (.insufficientStock batch.quantity)) ∧
    (batch.quantity < quantity →
      consumeFromBatch units batch defaultUnit quantity none source
        = .error (.insufficientStock batch.quantity)) ∧
    (∀ converted, u ≠ "" → u ≠ defaultUnit →
      convertQuantityBetweenUnits units quantity u defaultUnit = some converted →
      ¬batch.quantity < converted →
      consumeFromBatch units batch defaultUnit quantity (some u) source
        = .ok ⟨{ batch with quantity := batch.quantity - converted },
              { articleId := batch.articleId, batchId := some batch.id,
                quantity := converted, source := source, recipeId := none },
              some (quantity, u, converted, defaultUnit)⟩) := by
  have hnotle : ¬quantity ≤ 0 := not_le.mpr hq
  refine ⟨?_, ?_, ?_, ?_⟩
  · intro hu hud hconv
    have ht : truthyS u = true ∧ u ≠ defaultUnit := ⟨by simp [truthyS, hu], hud⟩
    simp only [consumeFromBatch, if_neg hnotle, if_pos ht, hconv]
  · intro converted hu hud hconv hlt
    have ht : truthyS u = true ∧ u ≠ defaultUnit := ⟨by simp [truthyS, hu], hud⟩
    simp only [consumeFromBatch, if_neg hnotle, if_pos ht, hconv, if_pos hlt]
  · intro hlt
    simp only [consumeFromBatch, if_neg hnotle, if_pos hlt]
  · intro converted hu hud hconv hnlt
    have ht : truthyS u = true ∧ u ≠ defaultUnit := ⟨by simp [truthyS, hu], hud⟩
    simp only [consumeFromBatch, if_neg hnotle, if_pos ht, hconv, if_neg hnlt]

/-- A batch used by the concrete consumption witnesses. -/
def paperBatch : Batch :=
  { id := 11, articleId := "paper", quantity := 3, initialQuantity := 3 }

/-- Witness for C7: with an empty unit store the unit `cup` cannot convert
to `ml`, so the rejection branch fires at a concrete input. -/
theorem consumeFromBatch_rejects_invalid_witness :
    consumeFromBatch [] paperBatch "ml" 1 (some "cup") "MANUAL"
      = .error (.notConvertible "cup" "ml") :=
  (consumeFromBatch_rejects_invalid [] paperBatch "ml" 1 "cup" "MANUAL"
      (by norm_num)).1
    (by decide) (by decide)
    (by simp [convertQuantityBetweenUnits])

/-! ## Claim C2: article-level FIFO consumption conservation -/

/-- C2 counterexample: with no positive-stock batch (total available stock
`S = 0 < q`) the operation does *not* report the shortfall via
`remaining > 0`; it fails with the `No stock available` error. -/
theorem consumeFromArticle_zero_stock_error :
    stockOf "milk" ([] : List Batch) = 0 ∧ (0 : ℚ) < 1 ∧
    consumeFromArticle [] "milk" 1 "MANUAL" = .error "No stock available" := by
  refine ⟨rfl, by norm_num, ?_⟩
  norm_num [consumeFromArticle, List.filter]

/-- C2 (amended: partial consumption with `remaining > 0` holds whenever at
least one batch of the article has positive stock; with zero available
batches the call instead fails with a `No stock available` error): on the
ok path `consumed + remaining = q`, `consumed ≤ S`, and `S < q` yields
`remaining = q - S > 0` rather than an error. -/
theorem consumeFromArticle_conservation (batches : List Batch) (aid : String)
    (quantity : ℚ) (source : String) (hq : 0 < quantity)
    (hne : batches.filter (batchMatch aid) ≠ []) :
    ∃ r, consumeFromArticle batches aid quantity source = .ok r ∧
      r.consumed + r.remaining = quantity ∧
      0 ≤ r.consumed ∧
      r.consumed ≤ stockOf aid batches ∧
      (stockOf aid batches < quantity →
        0 < r.remaining ∧ r.remaining = quantity - stockOf aid batches) ∧
      (quantity ≤ stockOf aid batches → r.remaining = 0) := by
  have hnotle : ¬quantity ≤ 0 := not_le.mpr hq
  have hempty : (batches.filter (batchMatch aid)).isEmpty = false := by
    cases hfe : (batches.filter (batchMatch aid)) with
    | nil => exact absurd hfe hne
    | cons x xs => simp [List.isEmpty]
  have hSnn : 0 ≤ stockOf aid batches := stockOf_nonneg aid batches
  have hrem := fifo_remaining aid source none batches quantity (le_of_lt hq)
  refine ⟨⟨(fifoConsumeAll aid source none batches quantity).batches,
          quantity - (fifoConsumeAll aid source none batches quantity).remaining,
          (fifoConsumeAll aid source none batches quantity).remaining,
          (fifoConsumeAll aid source none batches quantity).logs⟩, ?_, ?_, ?_, ?_, ?_, ?_⟩
  · simp only [consumeFromArticle, if_neg hnotle, hempty, Bool.false_eq_true,
      if_false]
  · simp only []
    ring
  · simp only [hrem]
    have h1 : quantity - stockOf aid batches ≤ quantity := by linarith
    have h2 : max (quantity - stockOf aid batches) 0 ≤ quantity :=
      max_le h1 (le_of_lt hq)
    linarith
  · simp only [hrem]
    have h1 : quantity - stockOf aid batches ≤ max (quantity - stockOf aid batches) 0 :=
      le_max_left _ _
    linarith
  · intro hlt
    simp only [hrem]
    have h1 : (0 : ℚ) ≤ quantity - stockOf aid batches := by linarith
    constructor
    · rw [max_eq_left h1]; linarith
    · rw [max_eq_left h1]
  · intro hge
    simp only [hrem]
    have h1 : quantity - stockOf aid batches ≤ 0 := by linarith
    rw [max_eq_right h1]

/-- Scenario-D shaped batches: 3 units expiring first, then 5 units. -/
def milkBatchA : Batch :=
  { id := 1, articleId := "milk", quantity := 3, initialQuantity := 3,
    expiryDate := some 2 }

def milkBatchB : Batch :=
  { id := 2, articleId := "milk", quantity := 5, initialQuantity := 5,
    expiryDate := some 10 }

/-- Witness for the amended C2 at a concrete input. -/
theorem consumeFromArticle_conservation_witness :
    ∃ r, consumeFromArticle [milkBatchA, milkBatchB] "milk" 4 "MANUAL" = .ok r ∧
      r.consumed + r.remaining = 4 ∧
      0 ≤ r.consumed ∧
      r.consumed ≤ stockOf "milk" [milkBatchA, milkBatchB] ∧
      (stockOf "milk" [milkBatchA, milkBatchB] < 4 →
        0 < r.remaining ∧ r.remaining = 4 - stockOf "milk" [milkBatchA, milkBatchB]) ∧
      (4 ≤ stockOf "milk" [milkBatchA, milkBatchB] → r.remaining = 0) :=
  consumeFromArticle_conservation [milkBatchA, milkBatchB] "milk" 4 "MANUAL"
    (by norm_num)
    (by norm_num [List.filter, batchMatch, milkBatchA, milkBatchB]
        exact List.cons_ne_nil _ _)

/-! ## Claim C8: stock correction -/

/-- A single 5-unit batch used by the scenario-E conjunct. -/
def batchFive : Batch :=
  { id := 7, articleId := "a", quantity := 5, initialQuantity := 5 }

/-- C8 (confirmed): with `difference = actualStock - currentStock`,
a zero difference changes nothing; a positive difference creates exactly
one batch with `quantity = initialQuantity = difference`,
`purchaseDate = now` and one negative CORRECTION log; a negative
difference consumes `|difference|` FIFO with positive CORRECTION logs —
and correcting computed stock 5 to actual 2 decrements FIFO by 3 total
with one positive log of quantity 3. -/
theorem correctStock_spec (batches : List Batch) (aid : String)
    (actualStock : ℚ) (now : ℤ) (newId : ℕ) (ha : 0 ≤ actualStock)
    (hnn : ∀ b ∈ batches, 0 ≤ b.quantity) :
    (actualStock = stockOf aid batches →
      correctStock batches aid actualStock now newId
        = .ok ⟨batches, [], stockOf aid batches, actualStock,
               actualStock - stockOf aid batches⟩) ∧
    (stockOf aid batches < actualStock →
      correctStock batches aid actualStock now newId
        = .ok ⟨batches ++ [{ id := newId, articleId := aid,
                             quantity := actualStock - stockOf aid batches,
                             initialQuantity := actualStock - stockOf aid batches,
                             purchaseDate := now }],
               [{ articleId := aid, batchId := some newId,
                  quantity := -(actualStock - stockOf aid batches),
                  source := "CORRECTION" }],
               stockOf aid batches, actualStock,
               actualStock - stockOf aid batches⟩) ∧
    (actualStock < stockOf aid batches →
      ∃ out, correctStock batches aid actualStock now newId = .ok out ∧
        (∀ l ∈ out.newLogs, 0 < l.quantity ∧ l.source = "CORRECTION") ∧
        (out.newLogs.map (fun l => l.quantity)).sum
          = stockOf aid batches - actualStock ∧
        articleStockAll aid out.batches = actualStock ∧
        out.previousStock = stockOf aid batches ∧
        out.newStock = actualStock ∧
        out.difference = actualStock - stockOf aid batches) ∧
    (∃ out, correctStock [batchFive] "a" 2 0 99 = .ok out ∧
      out.newLogs = [{ articleId := "a", batchId := some 7, quantity := 3,
                       source := "CORRECTION" }] ∧
      out.batches = [{ id := 7, articleId := "a", quantity := 2,
                       initialQuantity := 5 }] ∧
      out.difference = -3) := by
  have hnlt : ¬actualStock < 0 := not_lt.mpr ha
  refine ⟨?_, ?_, ?_, ?_⟩
  · intro heq
    have hz : actualStock - stockOf aid batches = 0 := by linarith
    simp only [correctStock, if_neg hnlt, if_pos hz, hz]
    simp
  · intro hlt
    have hz : ¬actualStock - stockOf aid batches = 0 := by
      intro h; linarith
    have hp : 0 < actualStock - stockOf aid batches := by linarith
    simp only [correctStock, if_neg hnlt, if_neg hz, if_pos hp]
  · intro hlt
    have hz : ¬actualStock - stockOf aid batches = 0 := by
      intro h; linarith
    have hp : ¬0 < actualStock - stockOf aid batches := by
      intro h; linarith
    have hd : -(actualStock - stockOf aid batches)
        = stockOf aid batches - actualStock := by ring
    have hdnn : 0 ≤ stockOf aid batches - actualStock := by linarith
    have hout : correctStock batches aid actualStock now newId
        = .ok ⟨(fifoConsumeAll aid "CORRECTION" none batches
                  (stockOf aid batches - actualStock)).batches,
               (fifoConsumeAll aid "CORRECTION" none batches
                  (stockOf aid batches - actualStock)).logs,
               stockOf aid batches, actualStock,
               actualStock - stockOf aid batches⟩ := by
      simp only [correctStock, if_neg hnlt, if_neg hz, if_neg hp, hd]
    refine ⟨_, hout, ?_, ?_, ?_, rfl, rfl, rfl⟩
    · intro l hl
      exact ⟨fifo_logs_pos aid "CORRECTION" none batches _ hdnn l hl,
        (fifo_log_fields aid "CORRECTION" none batches _ l hl).2.1⟩
    · rw [fifo_logs_sum aid "CORRECTION" none batches _ hdnn,
        fifo_remaining aid "CORRECTION" none batches _ hdnn]
      have hle : stockOf aid batches - actualStock - stockOf aid batches ≤ 0 := by
        linarith
      rw [max_eq_right hle]
      ring
    · rw [fifo_stock_conservation aid "CORRECTION" none batches _,
        fifo_remaining aid "CORRECTION" none batches _ hdnn]
      have hle : stockOf aid batches - actualStock - stockOf aid batches ≤ 0 := by
        linarith
      rw [max_eq_right hle,
        articleStockAll_eq_stockOf aid batches (fun b hb _ => hnn b hb)]
      ring
  · have hsc : correctStock [batchFive] "a" 2 0 99
        = .ok ⟨[{ id := 7, articleId := "a", quantity := 2, initialQuantity := 5 }],
               [{ articleId := "a", batchId := some 7, quantity := 3,
                  source := "CORRECTION" }], 5, 2, -3⟩ := by
      norm_num [correctStock, stockOf, List.filter, batchMatch, batchFive,
        fifoConsumeAll, min_def]
    exact ⟨_, hsc, rfl, rfl, rfl⟩

/-- Witness for C8: the deficit case applied to the concrete 5 → 2
correction. -/
theorem correctStock_spec_witness :
    ∃ out, correctStock [batchFive] "a" 2 0 99 = .ok out ∧
      (∀ l ∈ out.newLogs, 0 < l.quantity ∧ l.source = "CORRECTION") ∧
      (out.newLogs.map (fun l => l.quantity)).sum
        = stockOf "a" [batchFive] - 2 ∧
      articleStockAll "a" out.batches = 2 ∧
      out.previousStock = stockOf "a" [batchFive] ∧
      out.newStock = 2 ∧
      out.difference = 2 - stockOf "a" [batchFive] :=
  (correctStock_spec [batchFive] "a" 2 0 99 (by norm_num)
      (by norm_num [batchFive])).2.2.1
    (by norm_num [stockOf, List.filter, batchMatch, batchFive])

/-! ## Claim C1: recipe cooking is not all-or-nothing -/

/-- Every cook-loop iteration records its ingredient in exactly one of the
two report lists. -/
theorem cookStep_report_count (units : List UnitData) (articles : List Article)
    (recipeId : String) (mult : ℚ) (st : CookState) (ing : Ingredient) :
    (cookStep units articles recipeId mult st ing).consumed.length
      + (cookStep units articles recipeId mult st ing).missing.length
      = st.consumed.length + st.missing.length + 1 := by
  unfold cookStep
  cases hres : resolveCookArticle articles st.batches ing with
  | none => simp; omega
  | some article =>
    simp only []
    by_cases hu : ing.unit ≠ article.defaultUnit
    · rw [if_pos hu]
      cases hconv : convertQuantityBetweenUnits units (ing.quantity * mult)
          ing.unit article.defaultUnit with
      | none => simp; omega
      | some c =>
        simp only []
        by_cases hst : stockOf article.id st.batches < c
        · simp [hst]; omega
        · simp [hst]
          omega
    · rw [if_neg hu]
      by_cases hst : stockOf article.id st.batches < ing.quantity * mult
      · simp [hst]; omega
      · simp [hst]
        omega

theorem cook_foldl_count (units : List UnitData) (articles : List Article)
    (recipeId : String) (mult : ℚ) :
    ∀ (ings : List Ingredient) (st : CookState),
      (ings.foldl (cookStep units articles recipeId mult) st).consumed.length
        + (ings.foldl (cookStep units articles recipeId mult) st).missing.length
        = st.consumed.length + st.missing.length + ings.length := by
  intro ings
  induction ings with
  | nil => intro st; simp
  | cons ing rest ih =>
    intro st
    simp only [List.foldl_cons, List.length_cons]
    rw [ih (cookStep units articles recipeId mult st ing),
      cookStep_report_count]
    omega

/-- C1 (amended: the failure report is complete — every non-optional
ingredient of the call lands in exactly one of `consumed[]` and
`missing[]`, and the call reports failure exactly when `missing[]` is
nonempty — but the operation is *not* all-or-nothing at the recipe level:
ingredients satisfiable at their processing point are consumed immediately,
so a failing call can leave batches of other ingredients decremented, as
the counterexample shows). -/
theorem cookRecipe_itemizes_and_reports (units : List UnitData)
    (articles : List Article) (batches : List Batch) (recipeId : String)
    (recipe : Recipe) (servings : Option ℚ) :
    (cookRecipe units articles batches recipeId recipe servings).consumed.length
      + (cookRecipe units articles batches recipeId recipe servings).missing.length
      = (recipe.ingredients.filter (fun i => !i.isOptional)).length ∧
    ((cookRecipe units articles batches recipeId recipe servings).success = false
      ↔ (cookRecipe units articles batches recipeId recipe servings).missing ≠ []) := by
  constructor
  · simp only [cookRecipe]
    rw [cook_foldl_count]
    simp
  · simp only [cookRecipe]
    cases hfinal : ((recipe.ingredients.filter (fun i => !i.isOptional)).foldl
        (cookStep units articles recipeId
          (match servings with
           | some s => if s = 0 then 1 else s / recipe.servings
           | none => 1)) ⟨batches, [], []⟩).missing with
    | nil => simp [hfinal]
    | cons m ms => simp [hfinal]

/-- Fixtures for the C1 counterexample: a recipe whose first non-optional
ingredient has an unconvertible unit while its second is fully satisfiable. -/
def flourArticle : Article := { id := "flour", name := "Flour", defaultUnit := "g" }

def eggArticle : Article := { id := "egg", name := "Egg", defaultUnit := "pcs" }

def eggBatch : Batch :=
  { id := 21, articleId := "egg", quantity := 10, initialQuantity := 10 }

def breakfastRecipe : Recipe :=
  { name := "Breakfast", servings := 1,
    ingredients :=
      [{ id := "i1", articleId := some "flour", quantity := 100, unit := "cup" },
       { id := "i2", articleId := some "egg", quantity := 2, unit := "pcs" }] }

/-- C1 counterexample: cooking `breakfastRecipe` against an empty unit
store fails (the flour line's `cup` cannot convert to `g` and is itemized
in `missing[]`), yet the egg batch IS decremented from 10 to 8 by the same
failing call — partial consumption is left applied. -/
theorem cookRecipe_not_all_or_nothing :
    (cookRecipe [] [flourArticle, eggArticle] [eggBatch] "r1"
        breakfastRecipe none).success = false ∧
    (cookRecipe [] [flourArticle, eggArticle] [eggBatch] "r1"
        breakfastRecipe none).missing
      = [{ articleId := some "flour", name := "Flour", needed := 100,
           unit := "cup", convError := some "Cannot convert cup to g" }] ∧
    (cookRecipe [] [flourArticle, eggArticle] [eggBatch] "r1"
        breakfastRecipe none).batches
      = [{ id := 21, articleId := "egg", quantity := 8, initialQuantity := 10 }] ∧
    eggBatch.quantity = 10 := by
  refine ⟨?_, ?_, ?_, rfl⟩ <;>
    norm_num +decide [cookRecipe, cookStep, resolveCookArticle, truthyStr,
      convertQuantityBetweenUnits, List.find?, stockOf, List.filter,
      batchMatch, fifoConsumeAll, min_def, flourArticle, eggArticle,
      eggBatch, breakfastRecipe]

/-! ## Claim C10: no operation drives a batch quantity below zero -/

/-- One cook-loop iteration preserves nonnegative batch quantities. -/
theorem cookStep_batches_nonneg (units : List UnitData) (articles : List Article)
    (recipeId : String) (mult : ℚ) (st : CookState) (ing : Ingredient)
    (h : ∀ b ∈ st.batches, 0 ≤ b.quantity) :
    ∀ b ∈ (cookStep units articles recipeId mult st ing).batches, 0 ≤ b.quantity := by
  unfold cookStep
  cases hres : resolveCookArticle articles st.batches ing with
  | none => simpa using h
  | some article =>
    simp only []
    by_cases hu : ing.unit ≠ article.defaultUnit
    · rw [if_pos hu]
      cases hconv : convertQuantityBetweenUnits units (ing.quantity * mult)
          ing.unit article.defaultUnit with
      | none => simpa using h
      | some c =>
        simp only []
        by_cases hst : stockOf article.id st.batches < c
        · simpa [hst] using h
        · simp only [hst, if_false]
          exact fifo_batches_nonneg article.id "RECIPE" (some recipeId)
            st.batches c h
    · rw [if_neg hu]
      by_cases hst : stockOf article.id st.batches < ing.quantity * mult
      · simpa [hst] using h
      · simp only [hst, if_false]
        exact fifo_batches_nonneg article.id "RECIPE" (some recipeId)
          st.batches (ing.quantity * mult) h

theorem cook_foldl_batches_nonneg (units : List UnitData)
    (articles : List Article) (recipeId : String) (mult : ℚ) :
    ∀ (ings : List Ingredient) (st : CookState),
      (∀ b ∈ st.batches, 0 ≤ b.quantity) →
      ∀ b ∈ (ings.foldl (cookStep units articles recipeId mult) st).batches,
        0 ≤ b.quantity := by
  intro ings
  induction ings with
  | nil => intro st h; simpa using h
  | cons ing rest ih =>
    intro st h
    simp only [List.foldl_cons]
    exact ih _ (cookStep_batches_nonneg units articles recipeId mult st ing h)

/-- C10 (confirmed): every consuming operation preserves
`0 ≤ batch.quantity` on every batch row it returns — article-level FIFO
consumption, stock correction (all three cases), direct batch consumption
(which instead rejects before mutating when the converted quantity exceeds
the batch), and recipe cooking. -/
theorem batch_quantities_never_negative :
    (∀ (batches : List Batch) (aid : String) (q : ℚ) (source : String)
        (r : ConsumeArticleOk),
      (∀ b ∈ batches, 0 ≤ b.quantity) →
      consumeFromArticle batches aid q source = .ok r →
      ∀ b ∈ r.batches, 0 ≤ b.quantity) ∧
    (∀ (batches : List Batch) (aid : String) (actualStock : ℚ) (now : ℤ)
        (newId : ℕ) (out : CorrectStockOutcome),
      (∀ b ∈ batches, 0 ≤ b.quantity) →
      correctStock batches aid actualStock now newId = .ok out →
      ∀ b ∈ out.batches, 0 ≤ b.quantity) ∧
    (∀ (units : List UnitData) (batch : Batch) (defaultUnit : String) (q : ℚ)
        (u : Option String) (source : String) (okr : BatchConsumeOk),
      0 ≤ batch.quantity →
      consumeFromBatch units batch defaultUnit q u source = .ok okr →
      0 ≤ okr.batch.quantity) ∧
    (∀ (units : List UnitData) (articles : List Article) (batches : List Batch)
        (recipeId : String) (recipe : Recipe) (servings : Option ℚ),
      (∀ b ∈ batches, 0 ≤ b.quantity) →
      ∀ b ∈ (cookRecipe units articles batches recipeId recipe servings).batches,
        0 ≤ b.quantity) := by
  refine ⟨?_, ?_, ?_, ?_⟩
  · intro batches aid q source r hnn hok
    unfold consumeFromArticle at hok
    by_cases hq : q ≤ 0
    · simp [hq] at hok
    · rw [if_neg hq] at hok
      by_cases he : (batches.filter (batchMatch aid)).isEmpty = true
      · simp [he] at hok
      · simp only [he, Bool.false_eq_true, if_false] at hok
        cases hok
        exact fifo_batches_nonneg aid source none batches q hnn
  · intro batches aid actualStock now newId out hnn hok
    unfold correctStock at hok
    by_cases hv : actualStock < 0
    · simp [hv] at hok
    · rw [if_neg hv] at hok
      by_cases h0 : actualStock - stockOf aid batches = 0
      · rw [if_pos h0] at hok
        cases hok
        exact hnn
      · rw [if_neg h0] at hok
        by_cases hpos : 0 < actualStock - stockOf aid batches
        · rw [if_pos hpos] at hok
          cases hok
          intro b hb
          rcases List.mem_append.mp hb with h1 | h1
          · exact hnn b h1
          · rcases List.mem_singleton.mp h1 with rfl
            simpa using le_of_lt hpos
        · rw [if_neg hpos] at hok
          cases hok
          exact fifo_batches_nonneg aid "CORRECTION" none batches _ hnn
  · intro units batch defaultUnit q u source okr hb hok
    have hgo : ∀ (qd : ℚ) (conv : Option (ℚ × String × ℚ × String)),
        (if batch.quantity < qd then
          (.error (.insufficientStock batch.quantity) :
            Except BatchConsumeError BatchConsumeOk)
        else
          .ok ⟨{ batch with quantity := batch.quantity - qd },
               { articleId := batch.articleId, batchId := some batch.id,
                 quantity := qd, source := source }, conv⟩) = .ok okr →
        0 ≤ okr.batch.quantity := by
      intro qd conv heq
      by_cases hlt : batch.quantity < qd
      · simp [hlt] at heq
      · rw [if_neg hlt] at heq
        cases heq
        simp only []
        linarith [not_lt.mp hlt]
    by_cases hq : q ≤ 0
    · simp [consumeFromBatch, hq] at hok
    · cases u with
      | none =>
        simp only [consumeFromBatch, if_neg hq] at hok
        exact hgo q none hok
      | some us =>
        by_cases ht : truthyS us = true ∧ us ≠ defaultUnit
        · simp only [consumeFromBatch, if_neg hq, if_pos ht] at hok
          cases hconv : convertQuantityBetweenUnits units q us defaultUnit with
          | none => rw [hconv] at hok; cases hok
          | some c =>
            rw [hconv] at hok
            exact hgo c (some (q, us, c, defaultUnit)) hok
        · simp only [consumeFromBatch, if_neg hq, if_neg ht] at hok
          exact hgo q none hok
  · intro units articles batches recipeId recipe servings hnn
    simp only [cookRecipe]
    exact cook_foldl_batches_nonneg units articles recipeId _ _ ⟨batches, [], []⟩ hnn

/-- Witness for C10: the recipe-cooking conjunct instantiated on the
concrete partially-failing cook call. -/
theorem batch_quantities_never_negative_witness :
    ∀ b ∈ (cookRecipe [] [flourArticle, eggArticle] [eggBatch] "r1"
        breakfastRecipe none).batches, 0 ≤ b.quantity :=
  batch_quantities_never_negative.2.2.2 [] [flourArticle, eggArticle]
    [eggBatch] "r1" breakfastRecipe none
    (by intro b hb; rcases List.mem_singleton.mp hb with rfl; norm_num [eggBatch])

/-! ## Claim C6: shopping-list completion -/

/-- C6 (amended: the fallbacks use JS `||`, so a *zero* `purchasedQuantity`
or `actualPrice` also falls through to `neededQuantity` resp.
`estimatedPrice`, not only a null one): completing a non-completed list
creates, for every purchased item with a linked article, a batch with
`quantity = initialQuantity = purchasedQuantity || neededQuantity`,
`purchasePrice = actualPrice || estimatedPrice` and the item's recorded
expiry date; an already-completed list is rejected before any batch is
created. -/
theorem completeShoppingList_spec (completedAt : Option ℤ) (items : List SLItem)
    (now : ℤ) :
    (∀ t, completedAt = some t →
      completeShoppingList completedAt items now
        = .error "Shopping list already completed") ∧
    (completedAt = none →
      ∃ nbs, completeShoppingList completedAt items now = .ok nbs ∧
        ∀ i ∈ items, i.isPurchased = true → ∀ aid, i.articleId = some aid →
          ∃ nb ∈ nbs, nb.articleId = aid ∧
            nb.quantity = jsOrQ i.purchasedQuantity i.neededQuantity ∧
            nb.initialQuantity = jsOrQ i.purchasedQuantity i.neededQuantity ∧
            nb.purchasePrice = jsOrQQ i.actualPrice i.estimatedPrice ∧
            nb.expiryDate = i.expiryDate) := by
  constructor
  · intro t ht
    simp [completeShoppingList, ht]
  · intro hc
    subst hc
    simp only [completeShoppingList, Option.isSome_none, Bool.false_eq_true,
      if_false]
    refine ⟨_, rfl, ?_⟩
    intro i hi hp aid haid
    refine ⟨{ articleId := aid,
              quantity := jsOrQ i.purchasedQuantity i.neededQuantity,
              initialQuantity := jsOrQ i.purchasedQuantity i.neededQuantity,
              purchaseDate := i.purchaseDate.getD now,
              purchasePrice := jsOrQQ i.actualPrice i.estimatedPrice,
              expiryDate := i.expiryDate }, ?_, rfl, rfl, rfl, rfl, rfl⟩
    apply List.mem_filterMap.mpr
    refine ⟨i, List.mem_filter.mpr ⟨hi, ?_⟩, ?_⟩
    · simp [hp, haid]
    · simp [haid]

/-- A purchased item whose `purchasedQuantity` and `actualPrice` are the
non-null number zero. -/
def purchasedZeroItem : SLItem :=
  { articleId := some "a", neededQuantity := 5, isPurchased := true,
    purchasedQuantity := some 0, actualPrice := some 0,
    estimatedPrice := some 4 }

/-- C6 counterexample: with `purchasedQuantity = 0` (non-null) the created
batch's quantity is `neededQuantity = 5`, not the non-null
`purchasedQuantity = 0`, and with `actualPrice = 0` (non-null) the batch's
price is `estimatedPrice = 4`, not `0` — the code uses JS `||`, not `??`. -/
theorem completeShoppingList_zero_falls_through :
    purchasedZeroItem.purchasedQuantity = some 0 ∧
    purchasedZeroItem.actualPrice = some 0 ∧
    completeShoppingList none [purchasedZeroItem] 0
      = .ok [{ articleId := "a", quantity := 5, initialQuantity := 5,
               purchaseDate := 0, purchasePrice := some 4,
               expiryDate := none }] ∧
    (5 : ℚ) ≠ 0 ∧ some (4 : ℚ) ≠ some 0 := by
  refine ⟨rfl, rfl, ?_, by norm_num, by norm_num⟩
  norm_num +decide [completeShoppingList, purchasedZeroItem, List.filter,
    List.filterMap, jsOrQ, jsOrQQ]

/-- Witness for the amended C6: the already-completed rejection at a
concrete input. -/
theorem completeShoppingList_spec_witness :
    completeShoppingList (some 5) [purchasedZeroItem] 0
      = .error "Shopping list already completed" :=
  (completeShoppingList_spec (some 5) [purchasedZeroItem] 0).1 5 rfl

/-! ## Claim C9: recommended pack calculation -/

/-- C9 (confirmed): for a line with a (truthy) linked article whose package
info is available, `recommendedPacks = ceil(neededQuantity /
packageSizeInNeededUnit)` with the package size converted into the need's
unit; the fallback to 1 fires when no article is linked (or its package
info is absent), when the package size is not positive, or when the
conversion fails; and whenever the ceil formula is used with a positive
package size, `recommendedPacks * packageSizeInNeededUnit ≥
neededQuantity`. -/
theorem calculateRecommendedPacks_spec (pkgMap : List (String × PkgInfo))
    (units : List UnitData) (neededQuantity : ℚ) (neededUnit : String) :
    (calculateRecommendedPacks pkgMap units none neededQuantity neededUnit = 1) ∧
    (∀ aid, aid ≠ "" → alookup pkgMap aid = none →
      calculateRecommendedPacks pkgMap units (some aid) neededQuantity neededUnit
        = 1) ∧
    (∀ aid p, aid ≠ "" → alookup pkgMap aid = some p → p.packageSize ≤ 0 →
      calculateRecommendedPacks pkgMap units (some aid) neededQuantity neededUnit
        = 1) ∧
    (∀ aid p, aid ≠ "" → alookup pkgMap aid = some p → ¬p.packageSize ≤ 0 →
      p.packageUnit ≠ neededUnit →
      convertQuantityBetweenUnits units p.packageSize p.packageUnit neededUnit
        = none →
      calculateRecommendedPacks pkgMap units (some aid) neededQuantity neededUnit
        = 1) ∧
    (∀ aid p sz, aid ≠ "" → alookup pkgMap aid = some p → ¬p.packageSize ≤ 0 →
      (if p.packageUnit ≠ neededUnit then
        convertQuantityBetweenUnits units p.packageSize p.packageUnit neededUnit
       else some p.packageSize) = some sz →
      calculateRecommendedPacks pkgMap units (some aid) neededQuantity neededUnit
        = ⌈neededQuantity / sz⌉ ∧
      (0 < sz → neededQuantity ≤ (⌈neededQuantity / sz⌉ : ℚ) * sz)) := by
  refine ⟨rfl, ?_, ?_, ?_, ?_⟩
  · intro aid ha hl
    simp only [calculateRecommendedPacks, if_neg ha, hl]
  · intro aid p ha hl hs
    simp only [calculateRecommendedPacks, if_neg ha, hl, if_pos hs]
  · intro aid p ha hl hs hu hconv
    simp only [calculateRecommendedPacks, if_neg ha, hl, if_neg hs, if_pos hu,
      hconv]
  · intro aid p sz ha hl hs hsz
    constructor
    · simp only [calculateRecommendedPacks, if_neg ha, hl, if_neg hs, hsz]
    · intro hpos
      have h1 : neededQuantity / sz ≤ (⌈neededQuantity / sz⌉ : ℚ) :=
        Int.le_ceil _
      exact (div_le_iff₀ hpos).mp h1

/-- Witness for C9: a 1000 ml package against a 1300 ml need gives
`ceil(1300/1000) = 2` packs covering the need. -/
theorem calculateRecommendedPacks_spec_witness :
    (calculateRecommendedPacks [("milk", ⟨1000, "ml", "ml"⟩)] [] (some "milk")
        1300 "ml" = ⌈(1300 : ℚ) / 1000⌉ ∧
      (0 < (1000 : ℚ) →
        (1300 : ℚ) ≤ (⌈(1300 : ℚ) / 1000⌉ : ℚ) * 1000)) :=
  (calculateRecommendedPacks_spec [("milk", ⟨1000, "ml", "ml"⟩)] [] 1300
      "ml").2.2.2.2 "milk" ⟨1000, "ml", "ml"⟩ 1000
    (by decide)
    (by simp [alookup])
    (by norm_num)
    (by simp)

/-! ## Structural lemmas about `requiredIngredients` -/

theorem reqKey_of_truthy (ing : Ingredient) (h : truthyStr ing.articleId = true) :
    ing.articleId = some (reqKey ing) := by
  cases ha : ing.articleId with
  | none => rw [ha] at h; simp [truthyStr] at h
  | some s =>
    rw [ha] at h
    have hs : s ≠ "" := by simpa [truthyStr] using h
    have hkey : reqKey ing = s := by
      simp [reqKey, ha, jsOrStr, truthyStr, hs]
    rw [hkey]

theorem upsertReq_keys (m : List (String × ReqIngredient)) (k : String) (q : ℚ)
    (e : ReqIngredient) :
    (upsertReq m k q e).map Prod.fst
      = if k ∈ m.map Prod.fst then m.map Prod.fst
        else m.map Prod.fst ++ [k] := by
  induction m with
  | nil => simp [upsertReq]
  | cons hd rest ih =>
    obtain ⟨k', r⟩ := hd
    by_cases hk : k' = k
    · subst hk
      simp [upsertReq]
    · simp only [upsertReq, if_neg hk, List.map_cons, ih]
      by_cases hmem : k ∈ rest.map Prod.fst
      · simp [hmem, List.mem_cons, Ne.symm hk]
      · simp [hmem, List.mem_cons, Ne.symm hk]

theorem upsertReq_mem_cases (m : List (String × ReqIngredient)) (k : String)
    (q : ℚ) (e : ReqIngredient) :
    ∀ p ∈ upsertReq m k q e,
      (∃ r, (p.1, r) ∈ m ∧ p.2.articleId = r.articleId ∧ p.2.reason = r.reason)
      ∨ (p.1 = k ∧ p.2 = e) := by
  induction m with
  | nil =>
    intro p hp
    simp only [upsertReq] at hp
    rcases List.mem_singleton.mp hp with rfl
    exact Or.inr ⟨rfl, rfl⟩
  | cons hd rest ih =>
    obtain ⟨k', r⟩ := hd
    intro p hp
    by_cases hk : k' = k
    · subst hk
      simp only [upsertReq, if_pos rfl] at hp
      rcases List.mem_cons.mp hp with rfl | h1
      · exact Or.inl ⟨r, List.mem_cons_self _ _, rfl, rfl⟩
      · exact Or.inl ⟨p.2, List.mem_cons_of_mem _ (by simpa using h1), rfl, rfl⟩
    · simp only [upsertReq, if_neg hk] at hp
      rcases List.mem_cons.mp hp with rfl | h1
      · exact Or.inl ⟨r, List.mem_cons_self _ _, rfl, rfl⟩
      · rcases ih p h1 with ⟨r', hr', h2, h3⟩ | h2
        · exact Or.inl ⟨r', List.mem_cons_of_mem _ hr', h2, h3⟩
        · exact Or.inr h2

/-- Invariant of the `requiredIngredients` map: a value with a truthy
article id sits under that id as its key (so distinct entries can never
share a truthy article id), and every value carries reason RECIPE. -/
def ReqWellFormed (m : List (String × ReqIngredient)) : Prop :=
  ∀ p ∈ m, (truthyStr p.2.articleId = true → p.2.articleId = some p.1) ∧
    p.2.reason = "RECIPE"

theorem reqStep_wf (units : List UnitData) (articles : List Article)
    (mult : ℚ) (m : List (String × ReqIngredient)) (ing : Ingredient)
    (h1 : (m.map Prod.fst).Nodup) (h2 : ReqWellFormed m) :
    ((reqStep units articles mult m ing).map Prod.fst).Nodup ∧
      ReqWellFormed (reqStep units articles mult m ing) := by
  constructor
  · rw [reqStep, upsertReq_keys]
    by_cases hmem : reqKey ing ∈ m.map Prod.fst
    · simpa [hmem] using h1
    · simp only [hmem, if_false]
      simp [List.nodup_append, h1, hmem]
  · intro p hp
    rw [reqStep] at hp
    rcases upsertReq_mem_cases _ _ _ _ p hp with ⟨r, hr, ha, hrs⟩ | ⟨hk, he⟩
    · have hwf := h2 (p.1, r) hr
      refine ⟨fun ht => ?_, by rw [hrs]; exact hwf.2⟩
      rw [ha]
      exact hwf.1 (by rw [← ha]; exact ht)
    · refine ⟨fun ht => ?_, by rw [he]⟩
      rw [he] at ht ⊢
      simp only [] at ht ⊢
      rw [reqKey_of_truthy ing ht, hk]


theorem buildReqs_wf (units : List UnitData) (articles : List Article)
    (mealEntries : List MealEntry) :
    ((buildReqs units articles mealEntries).map Prod.fst).Nodup ∧
      ReqWellFormed (buildReqs units articles mealEntries) := by
  have hstep : ∀ (mult : ℚ) (ings : List Ingredient)
      (m : List (String × ReqIngredient)),
      (m.map Prod.fst).Nodup ∧ ReqWellFormed m →
      ((ings.foldl (reqStep units articles mult) m).map Prod.fst).Nodup ∧
        ReqWellFormed (ings.foldl (reqStep units articles mult) m) := by
    intro mult ings
    induction ings with
    | nil => intro m h; exact h
    | cons i rest ih =>
      intro m h
      exact ih _ (reqStep_wf units articles mult m i h.1 h.2)
  have hfold : ∀ (entries : List MealEntry) (m : List (String × ReqIngredient)),
      (m.map Prod.fst).Nodup ∧ ReqWellFormed m →
      ((entries.foldl (fun acc e =>
          e.recipe.ingredients.foldl
            (reqStep units articles (e.servings / e.recipe.servings)) acc) m).map
        Prod.fst).Nodup ∧
      ReqWellFormed (entries.foldl (fun acc e =>
          e.recipe.ingredients.foldl
            (reqStep units articles (e.servings / e.recipe.servings)) acc) m) := by
    intro entries
    induction entries with
    | nil => intro m h; exact h
    | cons e rest ih =>
      intro m h
      exact ih _ (hstep _ _ m h)
  exact hfold mealEntries []
    ⟨List.nodup_nil, by intro p hp; exact absurd hp (List.not_mem_nil p)⟩

/-! ## Per-pass characterization of generated lines -/

theorem processReqs_mem (sm mm : List (String × ℚ)) (pm : List (String × PkgInfo))
    (units : List UnitData) (fi : List ForecastItem) :
    ∀ (reqs : List (String × ReqIngredient)) (processed : List String),
      ∀ item ∈ (processReqs sm mm pm units fi reqs processed).1,
        ∃ k req, (k, req) ∈ reqs ∧
          item.articleId = req.articleId ∧
          item.customName = jsOrStr req.articleName req.categoryMatch ∧
          item.reason = req.reason ∧
          0 < round4 (req.totalQuantity + forecastOr0 fi req.articleId
            + lookupOr0 mm req.articleId - lookupOr0 sm req.articleId) ∧
          item.neededQuantity = round2 (round4 (req.totalQuantity
            + forecastOr0 fi req.articleId + lookupOr0 mm req.articleId
            - lookupOr0 sm req.articleId)) ∧
          item.recommendedPacks = calculateRecommendedPacks pm units req.articleId
            (round4 (req.totalQuantity + forecastOr0 fi req.articleId
              + lookupOr0 mm req.articleId - lookupOr0 sm req.articleId))
            req.unit := by
  intro reqs
  induction reqs with
  | nil => intro processed item h; simp [processReqs] at h
  | cons hd rest ih =>
    obtain ⟨k0, req0⟩ := hd
    intro processed item h
    simp only [processReqs] at h
    rcases List.mem_append.mp h with h1 | h1
    · by_cases hpos : 0 < round4 (req0.totalQuantity + forecastOr0 fi req0.articleId
          + lookupOr0 mm req0.articleId - lookupOr0 sm req0.articleId)
      · rw [if_pos hpos] at h1
        rcases List.mem_singleton.mp h1 with rfl
        exact ⟨k0, req0, List.mem_cons_self _ _, rfl, rfl, rfl, hpos, rfl, rfl⟩
      · rw [if_neg hpos] at h1
        cases h1
    · obtain ⟨k, req, hmem, hrest⟩ := ih _ item h1
      exact ⟨k, req, List.mem_cons_of_mem _ hmem, hrest⟩

theorem processForecast_mem (sm mm : List (String × ℚ))
    (pm : List (String × PkgInfo)) (units : List UnitData) :
    ∀ (fis : List ForecastItem) (processed : List String),
      ∀ item ∈ (processForecast sm mm pm units fis processed).1,
        ∃ f ∈ fis,
          item.articleId = some f.articleId ∧
          item.customName = none ∧
          item.reason = "FORECAST" ∧
          0 < round4 (f.quantity + (alookup mm f.articleId).getD 0
            - (alookup sm f.articleId).getD 0) ∧
          item.neededQuantity = round2 (round4 (f.quantity
            + (alookup mm f.articleId).getD 0 - (alookup sm f.articleId).getD 0)) ∧
          item.recommendedPacks = calculateRecommendedPacks pm units
            (some f.articleId)
            (round4 (f.quantity + (alookup mm f.articleId).getD 0
              - (alookup sm f.articleId).getD 0))
            (forecastUnit pm f.articleId) := by
  intro fis
  induction fis with
  | nil => intro processed item h; simp [processForecast] at h
  | cons f rest ih =>
    intro processed item h
    simp only [processForecast] at h
    by_cases hp : f.articleId ∈ processed
    · rw [if_pos hp] at h
      obtain ⟨g, hg, hrest⟩ := ih _ item h
      exact ⟨g, List.mem_cons_of_mem _ hg, hrest⟩
    · rw [if_neg hp] at h
      simp only [] at h
      rcases List.mem_append.mp h with h1 | h1
      · by_cases hpos : 0 < round4 (f.quantity + (alookup mm f.articleId).getD 0
            - (alookup sm f.articleId).getD 0)
        · rw [if_pos hpos] at h1
          rcases List.mem_singleton.mp h1 with rfl
          exact ⟨f, List.mem_cons_self _ _, rfl, rfl, rfl, hpos, rfl, rfl⟩
        · rw [if_neg hpos] at h1
          cases h1
      · obtain ⟨g, hg, hrest⟩ := ih _ item h1
        exact ⟨g, List.mem_cons_of_mem _ hg, hrest⟩

theorem processLowStock_mem (batches : List Batch)
    (pm : List (String × PkgInfo)) (units : List UnitData) :
    ∀ (arts : List Article) (processed : List String),
      ∀ item ∈ processLowStock batches pm units arts processed,
        ∃ a ∈ arts, ∃ mval : ℚ,
          a.minStock = some mval ∧ mval ≠ 0 ∧
          stockOf a.id batches < mval ∧
          item.articleId = some a.id ∧
          item.customName = none ∧
          item.reason = "LOW_STOCK" ∧
          item.neededQuantity = round2 (round4 (mval - stockOf a.id batches)) ∧
          item.recommendedPacks = calculateRecommendedPacks pm units (some a.id)
            (round4 (mval - stockOf a.id batches)) a.defaultUnit := by
  intro arts
  induction arts with
  | nil => intro processed item h; simp [processLowStock] at h
  | cons a rest ih =>
    intro processed item h
    simp only [processLowStock] at h
    by_cases hp : a.id ∈ processed
    · rw [if_pos hp] at h
      obtain ⟨b, hb, hrest⟩ := ih _ item h
      exact ⟨b, List.mem_cons_of_mem _ hb, hrest⟩
    · rw [if_neg hp] at h
      split at h
      next mval hms =>
        by_cases hcond : mval ≠ 0 ∧ stockOf a.id batches < mval
        · rw [if_pos hcond] at h
          rcases List.mem_cons.mp h with rfl | h1
          · exact ⟨a, List.mem_cons_self _ _, mval, hms, hcond.1, hcond.2,
              rfl, rfl, rfl, rfl, rfl⟩
          · obtain ⟨b, hb, hrest⟩ := ih _ item h1
            exact ⟨b, List.mem_cons_of_mem _ hb, hrest⟩
        · rw [if_neg hcond] at h
          obtain ⟨b, hb, hrest⟩ := ih _ item h
          exact ⟨b, List.mem_cons_of_mem _ hb, hrest⟩
      next hms =>
        obtain ⟨b, hb, hrest⟩ := ih _ item h
        exact ⟨b, List.mem_cons_of_mem _ hb, hrest⟩


/-! ## No article is double counted: truthy-id bookkeeping -/

/-- The truthy article id of a generated line, when it has one. -/
def itemTruthyId (i : GenItem) : Option String :=
  match i.articleId with
  | some a => if a = "" then none else some a
  | none => none

theorem processReqs_cons (sm mm : List (String × ℚ)) (pm : List (String × PkgInfo))
    (units : List UnitData) (fi : List ForecastItem) (k0 : String)
    (req0 : ReqIngredient) (rest : List (String × ReqIngredient))
    (processed : List String) :
    processReqs sm mm pm units fi ((k0, req0) :: rest) processed
      = ((if 0 < round4 (req0.totalQuantity + forecastOr0 fi req0.articleId
            + lookupOr0 mm req0.articleId - lookupOr0 sm req0.articleId) then
            [{ articleId := req0.articleId,
               customName := jsOrStr req0.articleName req0.categoryMatch,
               neededQuantity := round2 (round4 (req0.totalQuantity
                 + forecastOr0 fi req0.articleId + lookupOr0 mm req0.articleId
                 - lookupOr0 sm req0.articleId)),
               recommendedPacks := calculateRecommendedPacks pm units
                 req0.articleId
                 (round4 (req0.totalQuantity + forecastOr0 fi req0.articleId
                   + lookupOr0 mm req0.articleId - lookupOr0 sm req0.articleId))
                 req0.unit,
               reason := req0.reason }]
          else [])
          ++ (processReqs sm mm pm units fi rest
               (match req0.articleId with
                | some a => if a = "" then processed else a :: processed
                | none => processed)).1,
         (processReqs sm mm pm units fi rest
           (match req0.articleId with
            | some a => if a = "" then processed else a :: processed
            | none => processed)).2) := by
  simp only [processReqs]

theorem processReqs_ids (sm mm : List (String × ℚ)) (pm : List (String × PkgInfo))
    (units : List UnitData) (fi : List ForecastItem) :
    ∀ (reqs : List (String × ReqIngredient)) (processed : List String),
      (reqs.map Prod.fst).Nodup →
      (∀ p ∈ reqs, truthyStr p.2.articleId = true → p.2.articleId = some p.1) →
      (((processReqs sm mm pm units fi reqs processed).1.filterMap
          itemTruthyId).Nodup ∧
       (∀ a ∈ (processReqs sm mm pm units fi reqs processed).1.filterMap
          itemTruthyId,
         a ∈ (processReqs sm mm pm units fi reqs processed).2 ∧
         a ∈ reqs.map Prod.fst) ∧
       (∀ x ∈ processed, x ∈ (processReqs sm mm pm units fi reqs processed).2)) := by
  intro reqs
  induction reqs with
  | nil =>
    intro processed hnd hco
    exact ⟨by simp [processReqs], by simp [processReqs],
      by intro x hx; simpa [processReqs] using hx⟩
  | cons hd rest ih =>
    obtain ⟨k0, req0⟩ := hd
    intro processed hnd hco
    have hk0 : k0 ∉ rest.map Prod.fst := by
      have h2 := hnd
      simp only [List.map_cons] at h2
      exact (List.nodup_cons.mp h2).1
    have hndr : (rest.map Prod.fst).Nodup := by
      have h2 := hnd
      simp only [List.map_cons] at h2
      exact (List.nodup_cons.mp h2).2
    have hco2 : ∀ p ∈ rest, truthyStr p.2.articleId = true → p.2.articleId = some p.1 :=
      fun p hp => hco p (List.mem_cons_of_mem _ hp)
    rw [processReqs_cons]
    rcases ha : req0.articleId with _ | a
    · -- no article id: nothing added to the truthy ids nor to processed
      obtain ⟨ihn, ihm, ihp⟩ := ih processed hndr hco2
      simp only [List.filterMap_append]
      have hfm : ∀ c n p r, List.filterMap itemTruthyId
          [{ articleId := none, customName := c, neededQuantity := n,
             recommendedPacks := p, reason := r }] = [] := by
        intro c n p r
        simp [itemTruthyId]
      refine ⟨?_, ?_, ihp⟩
      · split
        · simpa [hfm] using ihn
        · simpa using ihn
      · intro x hx
        have hx2 : x ∈ (processReqs sm mm pm units fi rest processed).1.filterMap
            itemTruthyId := by
          rcases List.mem_append.mp hx with h1 | h1
          · rw [show List.filterMap itemTruthyId
                (if 0 < round4 (req0.totalQuantity + forecastOr0 fi none
                    + lookupOr0 mm none - lookupOr0 sm none) then _ else []) = []
              from by split <;> simp [hfm]] at h1
            cases h1
          · exact h1
        obtain ⟨hin, hkeys⟩ := ihm x hx2
        exact ⟨hin, by simp [hkeys]⟩
    · by_cases hae : a = ""
      · -- empty-string id: falsy, nothing added
        subst hae
        obtain ⟨ihn, ihm, ihp⟩ := ih processed hndr hco2
        simp only [List.filterMap_append, if_pos rfl]
        have hfm : ∀ c n p r, List.filterMap itemTruthyId
            [{ articleId := some "", customName := c, neededQuantity := n,
               recommendedPacks := p, reason := r }] = [] := by
          intro c n p r
          simp [itemTruthyId]
        refine ⟨?_, ?_, ihp⟩
        · split
          · simpa [hfm] using ihn
          · simpa using ihn
        · intro x hx
          have hx2 : x ∈ (processReqs sm mm pm units fi rest processed).1.filterMap
              itemTruthyId := by
            rcases List.mem_append.mp hx with h1 | h1
            · rw [show List.filterMap itemTruthyId
                  (if 0 < round4 (req0.totalQuantity + forecastOr0 fi (some "")
                      + lookupOr0 mm (some "") - lookupOr0 sm (some "")) then _
                   else []) = []
                from by split <;> simp [hfm]] at h1
              cases h1
            · exact h1
          obtain ⟨hin, hkeys⟩ := ihm x hx2
          exact ⟨hin, by simp [hkeys]⟩
      · -- truthy id: coherence pins it to the key
        have hak : a = k0 := by
          have h2 := hco (k0, req0) (List.mem_cons_self _ _)
            (by simp [truthyStr, ha, hae])
          rw [ha] at h2
          exact Option.some_injective _ h2
        subst hak
        simp only [if_neg hae]
        obtain ⟨ihn, ihm, ihp⟩ := ih (a :: processed) hndr hco2
        simp only [List.filterMap_append]
        have hfm : ∀ c n p r, List.filterMap itemTruthyId
            [{ articleId := some a, customName := c, neededQuantity := n,
               recommendedPacks := p, reason := r }] = [a] := by
          intro c n p r
          simp [itemTruthyId, hae]
        have hrecmem : ∀ x ∈ (processReqs sm mm pm units fi rest
            (a :: processed)).1.filterMap itemTruthyId, x ≠ a := by
          intro x hx hxa
          subst hxa
          exact hk0 ((ihm x hx).2)
        refine ⟨?_, ?_, ?_⟩
        · split
          · rw [hfm]
            refine List.nodup_cons.mpr ⟨?_, ihn⟩
            intro hmem
            exact hrecmem a hmem rfl
          · simpa using ihn
        · intro x hx
          have hx2 : x = a ∨ x ∈ (processReqs sm mm pm units fi rest
              (a :: processed)).1.filterMap itemTruthyId := by
            rcases List.mem_append.mp hx with h1 | h1
            · revert h1
              split
              · rw [hfm]
                intro h1
                exact Or.inl (List.mem_singleton.mp h1)
              · intro h1
                simp at h1
            · exact Or.inr h1
          rcases hx2 with rfl | hx3
          · exact ⟨ihp x (List.mem_cons_self _ _), by simp⟩
          · obtain ⟨hin, hkeys⟩ := ihm x hx3
            exact ⟨hin, by simp [hkeys]⟩
        · intro x hx
          exact ihp x (List.mem_cons_of_mem _ hx)


theorem processForecast_cons_skip (sm mm : List (String × ℚ))
    (pm : List (String × PkgInfo)) (units : List UnitData) (f : ForecastItem)
    (rest : List ForecastItem) (processed : List String)
    (h : f.articleId ∈ processed) :
    processForecast sm mm pm units (f :: rest) processed
      = processForecast sm mm pm units rest processed := by
  simp only [processForecast, if_pos h]

theorem processForecast_cons_new (sm mm : List (String × ℚ))
    (pm : List (String × PkgInfo)) (units : List UnitData) (f : ForecastItem)
    (rest : List ForecastItem) (processed : List String)
    (h : f.articleId ∉ processed) :
    processForecast sm mm pm units (f :: rest) processed
      = ((if 0 < round4 (f.quantity + (alookup mm f.articleId).getD 0
            - (alookup sm f.articleId).getD 0) then
            [{ articleId := some f.articleId, customName := none,
               neededQuantity := round2 (round4 (f.quantity
                 + (alookup mm f.articleId).getD 0
                 - (alookup sm f.articleId).getD 0)),
               recommendedPacks := calculateRecommendedPacks pm units
                 (some f.articleId)
                 (round4 (f.quantity + (alookup mm f.articleId).getD 0
                   - (alookup sm f.articleId).getD 0))
                 (forecastUnit pm f.articleId),
               reason := "FORECAST" }]
          else [])
          ++ (processForecast sm mm pm units rest (f.articleId :: processed)).1,
         (processForecast sm mm pm units rest (f.articleId :: processed)).2) := by
  simp only [processForecast, if_neg h]

theorem processForecast_ids (sm mm : List (String × ℚ))
    (pm : List (String × PkgInfo)) (units : List UnitData) :
    ∀ (fis : List ForecastItem) (processed : List String),
      (((processForecast sm mm pm units fis processed).1.filterMap
          itemTruthyId).Nodup ∧
       (∀ a ∈ (processForecast sm mm pm units fis processed).1.filterMap
          itemTruthyId,
         a ∉ processed ∧ a ∈ (processForecast sm mm pm units fis processed).2) ∧
       (∀ x ∈ processed,
         x ∈ (processForecast sm mm pm units fis processed).2)) := by
  intro fis
  induction fis with
  | nil =>
    intro processed
    exact ⟨by simp [processForecast], by simp [processForecast],
      by intro x hx; simpa [processForecast] using hx⟩
  | cons f rest ih =>
    intro processed
    by_cases hp : f.articleId ∈ processed
    · rw [processForecast_cons_skip sm mm pm units f rest processed hp]
      exact ih processed
    · rw [processForecast_cons_new sm mm pm units f rest processed hp]
      obtain ⟨ihn, ihm, ihp⟩ := ih (f.articleId :: processed)
      simp only [List.filterMap_append]
      by_cases hae : f.articleId = ""
      · have hfm : ∀ c n p r, List.filterMap itemTruthyId
            [{ articleId := some f.articleId, customName := c,
               neededQuantity := n, recommendedPacks := p, reason := r }]
            = [] := by
          intro c n p r
          simp [itemTruthyId, hae]
        refine ⟨?_, ?_, ?_⟩
        · split
          · simpa [hfm] using ihn
          · simpa using ihn
        · intro x hx
          have hx2 : x ∈ (processForecast sm mm pm units rest
              (f.articleId :: processed)).1.filterMap itemTruthyId := by
            rcases List.mem_append.mp hx with h1 | h1
            · rw [show List.filterMap itemTruthyId
                  (if 0 < round4 (f.quantity + (alookup mm f.articleId).getD 0
                      - (alookup sm f.articleId).getD 0) then _ else []) = []
                from by split <;> simp [hfm]] at h1
              cases h1
            · exact h1
          have h3 := ihm x hx2
          exact ⟨fun hxp => h3.1 (List.mem_cons_of_mem _ hxp), h3.2⟩
        · intro x hx
          exact ihp x (List.mem_cons_of_mem _ hx)
      · have hfm : ∀ c n p r, List.filterMap itemTruthyId
            [{ articleId := some f.articleId, customName := c,
               neededQuantity := n, recommendedPacks := p, reason := r }]
            = [f.articleId] := by
          intro c n p r
          simp [itemTruthyId, hae]
        have hrecnot : ∀ x ∈ (processForecast sm mm pm units rest
            (f.articleId :: processed)).1.filterMap itemTruthyId,
            x ≠ f.articleId := by
          intro x hx hxa
          subst hxa
          exact (ihm _ hx).1 (List.mem_cons_self _ _)
        refine ⟨?_, ?_, ?_⟩
        · split
          · rw [hfm]
            refine List.nodup_cons.mpr ⟨?_, ihn⟩
            intro hmem
            exact hrecnot _ hmem rfl
          · simpa using ihn
        · intro x hx
          have hx2 : x = f.articleId ∨ x ∈ (processForecast sm mm pm units rest
              (f.articleId :: processed)).1.filterMap itemTruthyId := by
            rcases List.mem_append.mp hx with h1 | h1
            · revert h1
              split
              · rw [hfm]
                intro h1
                exact Or.inl (List.mem_singleton.mp h1)
              · intro h1
                simp at h1
            · exact Or.inr h1
          rcases hx2 with rfl | hx3
          · exact ⟨hp, ihp _ (List.mem_cons_self _ _)⟩
          · have h3 := ihm x hx3
            exact ⟨fun hxp => h3.1 (List.mem_cons_of_mem _ hxp), h3.2⟩
        · intro x hx
          exact ihp x (List.mem_cons_of_mem _ hx)

theorem processLowStock_ids (batches : List Batch)
    (pm : List (String × PkgInfo)) (units : List UnitData) :
    ∀ (arts : List Article) (processed : List String),
      ((arts.map (fun a => a.id)).Nodup) →
      (((processLowStock batches pm units arts processed).filterMap
          itemTruthyId).Nodup ∧
       (∀ x ∈ (processLowStock batches pm units arts processed).filterMap
          itemTruthyId,
         x ∉ processed ∧ x ∈ arts.map (fun a => a.id))) := by
  intro arts
  induction arts with
  | nil =>
    intro processed _
    exact ⟨by simp [processLowStock], by simp [processLowStock]⟩
  | cons a rest ih =>
    intro processed hnd
    have hidnot : a.id ∉ rest.map (fun a => a.id) := by
      have h2 := hnd
      simp only [List.map_cons] at h2
      exact (List.nodup_cons.mp h2).1
    have hndr : (rest.map (fun a => a.id)).Nodup := by
      have h2 := hnd
      simp only [List.map_cons] at h2
      exact (List.nodup_cons.mp h2).2
    simp only [processLowStock]
    by_cases hp : a.id ∈ processed
    · rw [if_pos hp]
      obtain ⟨ihn, ihm⟩ := ih processed hndr
      exact ⟨ihn, fun x hx => ⟨(ihm x hx).1, by simp [(ihm x hx).2]⟩⟩
    · rw [if_neg hp]
      split
      next mval hms =>
        split
        next hcond =>
          simp only [List.filterMap_cons]
          by_cases hae : a.id = ""
          · rw [show itemTruthyId
                { articleId := some a.id, customName := none,
                  neededQuantity := round2 (round4 (mval - stockOf a.id batches)),
                  recommendedPacks := calculateRecommendedPacks pm units
                    (some a.id) (round4 (mval - stockOf a.id batches))
                    a.defaultUnit,
                  reason := "LOW_STOCK" } = none
              from by simp [itemTruthyId, hae]]
            obtain ⟨ihn, ihm⟩ := ih processed hndr
            exact ⟨ihn, fun x hx => ⟨(ihm x hx).1, by simp [(ihm x hx).2]⟩⟩
          · rw [show itemTruthyId
                { articleId := some a.id, customName := none,
                  neededQuantity := round2 (round4 (mval - stockOf a.id batches)),
                  recommendedPacks := calculateRecommendedPacks pm units
                    (some a.id) (round4 (mval - stockOf a.id batches))
                    a.defaultUnit,
                  reason := "LOW_STOCK" } = some a.id
              from by simp [itemTruthyId, hae]]
            obtain ⟨ihn, ihm⟩ := ih processed hndr
            refine ⟨?_, ?_⟩
            · refine List.nodup_cons.mpr ⟨?_, ihn⟩
              intro hmem
              exact hidnot ((ihm a.id hmem).2)
            · intro x hx
              rcases List.mem_cons.mp hx with rfl | hx2
              · exact ⟨hp, by simp⟩
              · exact ⟨(ihm x hx2).1, by simp [(ihm x hx2).2]⟩
        next hcond =>
          obtain ⟨ihn, ihm⟩ := ih processed hndr
          exact ⟨ihn, fun x hx => ⟨(ihm x hx).1, by simp [(ihm x hx).2]⟩⟩
      next hms =>
        obtain ⟨ihn, ihm⟩ := ih processed hndr
        exact ⟨ihn, fun x hx => ⟨(ihm x hx).1, by simp [(ihm x hx).2]⟩⟩


/-- Scenario-A fixtures: "Milk" in ml with a 1000 ml package, 200 ml in
stock and a meal-plan demand of 1500 ml. -/
def milkArticle : Article :=
  { id := "milk", name := "Milk", defaultUnit := "ml",
    packageSize := 1000, packageUnit := "ml" }

def milkStock : Batch :=
  { id := 31, articleId := "milk", quantity := 200, initialQuantity := 1000 }

def milkIngredient : Ingredient :=
  { id := "mi1", articleId := some "milk", quantity := 1500, unit := "ml" }

def milkRecipe : Recipe :=
  { name := "Porridge", servings := 1, ingredients := [milkIngredient] }

def milkMeal : MealEntry := { servings := 1, recipe := milkRecipe }

/-- Scenario A evaluated: one RECIPE line for 1300 ml in 2 packs. -/
theorem scenarioA_items :
    generateShoppingItems [] [milkArticle] [milkStock] [milkMeal] []
    = [{ articleId := some "milk", customName := some "Milk",
         neededQuantity := 1300, recommendedPacks := 2, reason := "RECIPE" }] := by
  have h4 : round4 (1300 : ℚ) = 1300 := by norm_num [round4, jsRound]
  have h2 : round2 (1300 : ℚ) = 1300 := by norm_num [round2, jsRound]
  have hc : ⌈(13 : ℚ) / 10⌉ = (2 : ℤ) := by
    rw [Int.ceil_eq_iff]
    norm_num
  norm_num +decide [generateShoppingItems, genMaps, buildReqs, reqStep,
    reqQuantityUnit, ingArticle, reqKey, upsertReq, jsOrStr, truthyStr, truthyS,
    reqArticleIds, baseStockMap, basePkgMap, articlesWithMinStock, extendMaps,
    stockOf, batchMatch, List.filter, List.find?, alookup, lookupOr0, forecastOr0,
    forecastLookup, processReqs, processForecast, processLowStock,
    calculateRecommendedPacks, List.filterMap, milkArticle, milkStock, milkMeal,
    milkIngredient, milkRecipe, h4, h2, hc]


/-! ## Claim C3: the generation pipeline -/

/-- The stock map the three passes read (`stockMap` after step 5). -/
def genStockMapOf (units : List UnitData) (articles : List Article)
    (batches : List Batch) (mealEntries : List MealEntry) : List (String × ℚ) :=
  (genMaps articles batches (buildReqs units articles mealEntries)).1

/-- The package-info map the three passes read. -/
def genPkgMapOf (units : List UnitData) (articles : List Article)
    (batches : List Batch) (mealEntries : List MealEntry) :
    List (String × PkgInfo) :=
  (genMaps articles batches (buildReqs units articles mealEntries)).2.1

/-- The minStock map the three passes read. -/
def genMinMapOf (units : List UnitData) (articles : List Article)
    (batches : List Batch) (mealEntries : List MealEntry) : List (String × ℚ) :=
  (genMaps articles batches (buildReqs units articles mealEntries)).2.2

/-- C3 (amended: (i) the *stored* need is the 4-decimal-rounded total
rounded once more to 2 decimals, not the 4-decimal value itself; (ii) the
`currentStock`/`minStock`/`forecastNeed` terms are resolved through the
generator's maps, which default to 0 for articles outside the recipe and
min-stock fetches; (iii) the low-stock pass tests positivity of the
*unrounded* `minStock - stock` difference): per line the stored need is
`round2 (round4 (recipeNeed + forecastNeed + minStock - currentStock))`
under the branch that produced it, only positive totals produce lines, the
three passes run in order recipe → forecast-only → low-stock-only with
first match winning so no article id is ever emitted twice, and scenario A
(Milk, 1000 ml packages, need 1500 ml, stock 200 ml) yields exactly one
line with `neededQuantity = 1300` and `recommendedPacks = 2`. -/
theorem generateShoppingItems_spec (units : List UnitData)
    (articles : List Article) (batches : List Batch)
    (mealEntries : List MealEntry) (forecastItems : List ForecastItem)
    (hids : (articles.map (fun a => a.id)).Nodup) :
    (∀ item ∈ generateShoppingItems units articles batches mealEntries
        forecastItems,
      (item.reason = "RECIPE" →
        ∃ k req, (k, req) ∈ buildReqs units articles mealEntries ∧
          item.articleId = req.articleId ∧
          0 < round4 (req.totalQuantity
            + forecastOr0 forecastItems req.articleId
            + lookupOr0 (genMinMapOf units articles batches mealEntries)
                req.articleId
            - lookupOr0 (genStockMapOf units articles batches mealEntries)
                req.articleId) ∧
          item.neededQuantity = round2 (round4 (req.totalQuantity
            + forecastOr0 forecastItems req.articleId
            + lookupOr0 (genMinMapOf units articles batches mealEntries)
                req.articleId
            - lookupOr0 (genStockMapOf units articles batches mealEntries)
                req.articleId))) ∧
      (item.reason = "FORECAST" →
        ∃ f ∈ forecastItems, item.articleId = some f.articleId ∧
          0 < round4 (f.quantity
            + (alookup (genMinMapOf units articles batches mealEntries)
                f.articleId).getD 0
            - (alookup (genStockMapOf units articles batches mealEntries)
                f.articleId).getD 0) ∧
          item.neededQuantity = round2 (round4 (f.quantity
            + (alookup (genMinMapOf units articles batches mealEntries)
                f.articleId).getD 0
            - (alookup (genStockMapOf units articles batches mealEntries)
                f.articleId).getD 0))) ∧
      (item.reason = "LOW_STOCK" →
        ∃ a ∈ articles, ∃ mval : ℚ, a.minStock = some mval ∧ mval ≠ 0 ∧
          stockOf a.id batches < mval ∧ item.articleId = some a.id ∧
          item.neededQuantity
            = round2 (round4 (mval - stockOf a.id batches))) ∧
      (item.reason = "RECIPE" ∨ item.reason = "FORECAST" ∨
        item.reason = "LOW_STOCK")) ∧
    ((generateShoppingItems units articles batches mealEntries
        forecastItems).filterMap itemTruthyId).Nodup ∧
    (∃ l1 l2 l3, generateShoppingItems units articles batches mealEntries
        forecastItems = l1 ++ l2 ++ l3 ∧
      (∀ i ∈ l1, i.reason = "RECIPE") ∧ (∀ i ∈ l2, i.reason = "FORECAST") ∧
      (∀ i ∈ l3, i.reason = "LOW_STOCK")) ∧
    generateShoppingItems [] [milkArticle] [milkStock] [milkMeal] []
      = [{ articleId := some "milk", customName := some "Milk",
           neededQuantity := 1300, recommendedPacks := 2,
           reason := "RECIPE" }] := by
  have hwf := buildReqs_wf units articles mealEntries
  have hco : ∀ p ∈ buildReqs units articles mealEntries,
      truthyStr p.2.articleId = true → p.2.articleId = some p.1 :=
    fun p hp => (hwf.2 p hp).1
  have hreason : ∀ p ∈ buildReqs units articles mealEntries,
      p.2.reason = "RECIPE" := fun p hp => (hwf.2 p hp).2
  have hitems : generateShoppingItems units articles batches mealEntries
      forecastItems
      = (processReqs (genMaps articles batches
            (buildReqs units articles mealEntries)).1
          (genMaps articles batches (buildReqs units articles mealEntries)).2.2
          (genMaps articles batches (buildReqs units articles mealEntries)).2.1
          units forecastItems (buildReqs units articles mealEntries) []).1
        ++ (processForecast (genMaps articles batches
              (buildReqs units articles mealEntries)).1
            (genMaps articles batches
              (buildReqs units articles mealEntries)).2.2
            (genMaps articles batches
              (buildReqs units articles mealEntries)).2.1
            units forecastItems
            (processReqs (genMaps articles batches
                (buildReqs units articles mealEntries)).1
              (genMaps articles batches
                (buildReqs units articles mealEntries)).2.2
              (genMaps articles batches
                (buildReqs units articles mealEntries)).2.1
              units forecastItems (buildReqs units articles mealEntries) []).2).1
        ++ processLowStock batches
            (genMaps articles batches
              (buildReqs units articles mealEntries)).2.1
            units (articlesWithMinStock articles)
            (processForecast (genMaps articles batches
                (buildReqs units articles mealEntries)).1
              (genMaps articles batches
                (buildReqs units articles mealEntries)).2.2
              (genMaps articles batches
                (buildReqs units articles mealEntries)).2.1
              units forecastItems
              (processReqs (genMaps articles batches
                  (buildReqs units articles mealEntries)).1
                (genMaps articles batches
                  (buildReqs units articles mealEntries)).2.2
                (genMaps articles batches
                  (buildReqs units articles mealEntries)).2.1
                units forecastItems
                (buildReqs units articles mealEntries) []).2).2 := by
    simp only [generateShoppingItems]
  have hminNodup : ((articlesWithMinStock articles).map (fun a => a.id)).Nodup := by
    refine List.Nodup.sublist ?_ hids
    exact List.Sublist.map _ (List.filter_sublist _)
  have h1 := processReqs_ids (genMaps articles batches
      (buildReqs units articles mealEntries)).1
    (genMaps articles batches (buildReqs units articles mealEntries)).2.2
    (genMaps articles batches (buildReqs units articles mealEntries)).2.1
    units forecastItems (buildReqs units articles mealEntries) [] hwf.1 hco
  have h2 := processForecast_ids (genMaps articles batches
      (buildReqs units articles mealEntries)).1
    (genMaps articles batches (buildReqs units articles mealEntries)).2.2
    (genMaps articles batches (buildReqs units articles mealEntries)).2.1
    units forecastItems
    (processReqs (genMaps articles batches
        (buildReqs units articles mealEntries)).1
      (genMaps articles batches (buildReqs units articles mealEntries)).2.2
      (genMaps articles batches (buildReqs units articles mealEntries)).2.1
      units forecastItems (buildReqs units articles mealEntries) []).2
  have h3 := processLowStock_ids batches
    (genMaps articles batches (buildReqs units articles mealEntries)).2.1
    units (articlesWithMinStock articles)
    (processForecast (genMaps articles batches
        (buildReqs units articles mealEntries)).1
      (genMaps articles batches (buildReqs units articles mealEntries)).2.2
      (genMaps articles batches (buildReqs units articles mealEntries)).2.1
      units forecastItems
      (processReqs (genMaps articles batches
          (buildReqs units articles mealEntries)).1
        (genMaps articles batches (buildReqs units articles mealEntries)).2.2
        (genMaps articles batches (buildReqs units articles mealEntries)).2.1
        units forecastItems (buildReqs units articles mealEntries) []).2).2
    hminNodup
  refine ⟨?_, ?_, ?_, scenarioA_items⟩
  · intro item hitem
    rw [hitems] at hitem
    rcases List.mem_append.mp hitem with hmem12 | hmem3
    · rcases List.mem_append.mp hmem12 with hmem | hmem
      · -- first pass: RECIPE
        obtain ⟨k, req, hkmem, hiid, hcn, hr, hpos, hneed, hpacks⟩ :=
          processReqs_mem _ _ _ _ _ _ _ item hmem
        have hrr : item.reason = "RECIPE" := by
          rw [hr]; exact hreason (k, req) hkmem
        refine ⟨?_, ?_, ?_, ?_⟩
        · intro _
          exact ⟨k, req, hkmem, hiid, hpos, hneed⟩
        · intro hx
          rw [hrr] at hx
          exact absurd hx (by decide)
        · intro hx
          rw [hrr] at hx
          exact absurd hx (by decide)
        · exact Or.inl hrr
      · -- second pass: FORECAST
        obtain ⟨f, hfmem, hiid, hcn, hr, hpos, hneed, hpacks⟩ :=
          processForecast_mem _ _ _ _ _ _ item hmem
        refine ⟨?_, ?_, ?_, ?_⟩
        · intro hrr
          rw [hr] at hrr
          exact absurd hrr (by decide)
        · intro _
          exact ⟨f, hfmem, hiid, hpos, hneed⟩
        · intro hrr
          rw [hr] at hrr
          exact absurd hrr (by decide)
        · exact Or.inr (Or.inl hr)
    · -- third pass: LOW_STOCK
      obtain ⟨a, hamem, mval, hms, hm0, hstock, hiid, hcn, hr, hneed, hpacks⟩ :=
        processLowStock_mem _ _ _ _ _ item hmem3
      refine ⟨?_, ?_, ?_, ?_⟩
      · intro hrr
        rw [hr] at hrr
        exact absurd hrr (by decide)
      · intro hrr
        rw [hr] at hrr
        exact absurd hrr (by decide)
      · intro _
        exact ⟨a, List.mem_of_mem_filter hamem, mval, hms, hm0, hstock,
          hiid, hneed⟩
      · exact Or.inr (Or.inr hr)
  · rw [hitems]
    rw [List.filterMap_append, List.filterMap_append]
    refine List.nodup_append.mpr ⟨List.nodup_append.mpr ⟨h1.1, h2.1, ?_⟩,
      h3.1, ?_⟩
    · intro a ha1 ha2
      exact (h2.2.1 a ha2).1 ((h1.2.1 a ha1).1)
    · intro a ha12 ha3
      rcases List.mem_append.mp ha12 with ha1 | ha2
      · exact (h3.2 a ha3).1 (h2.2.2 a ((h1.2.1 a ha1).1))
      · exact (h3.2 a ha3).1 ((h2.2.1 a ha2).2)
  · refine ⟨_, _, _, hitems, ?_, ?_, ?_⟩
    · intro i hi
      obtain ⟨k, req, hkmem, _, _, hr, _⟩ :=
        processReqs_mem _ _ _ _ _ _ _ i hi
      rw [hr]
      exact hreason (k, req) hkmem
    · intro i hi
      obtain ⟨f, _, _, _, hr, _⟩ := processForecast_mem _ _ _ _ _ _ i hi
      exact hr
    · intro i hi
      obtain ⟨a, _, mval, _, _, _, _, _, hr, _⟩ :=
        processLowStock_mem _ _ _ _ _ i hi
      exact hr

/-- Witness for the amended C3: the theorem applied to the scenario-A
state. -/
theorem generateShoppingItems_spec_witness :
    generateShoppingItems [] [milkArticle] [milkStock] [milkMeal] []
      = [{ articleId := some "milk", customName := some "Milk",
           neededQuantity := 1300, recommendedPacks := 2,
           reason := "RECIPE" }] :=
  (generateShoppingItems_spec [] [milkArticle] [milkStock] [milkMeal] []
    (by simp [milkArticle])).2.2.2


/-- C3 counterexample fixtures: a single recipe need of 0.1234 units. -/
def tinyArticle : Article := { id := "tiny", name := "Tiny", defaultUnit := "pcs" }

def tinyIngredient : Ingredient :=
  { id := "ti1", articleId := some "tiny", quantity := 1234/10000, unit := "pcs" }

def tinyRecipe : Recipe :=
  { name := "T", servings := 1, ingredients := [tinyIngredient] }

def tinyMeal : MealEntry := { servings := 1, recipe := tinyRecipe }

/-- C3 counterexample: the stored need is NOT the 4-decimal-rounded total.
With a recipe need of 0.1234 and nothing else, the 4-decimal total is
0.1234 but the stored `neededQuantity` is the 2-decimal value 0.12. -/
theorem generate_stores_two_decimal_value :
    generateShoppingItems [] [tinyArticle] [] [tinyMeal] []
      = [{ articleId := some "tiny", customName := some "Tiny",
           neededQuantity := 12/100, recommendedPacks := 1,
           reason := "RECIPE" }] ∧
    round4 ((1234 : ℚ)/10000 + 0 + 0 - 0) = 1234/10000 ∧
    (12 : ℚ)/100 ≠ 1234/10000 := by
  have h4 : round4 ((617 : ℚ)/5000) = 617/5000 := by
    norm_num [round4, jsRound]
  have h2 : round2 ((617 : ℚ)/5000) = 3/25 := by
    norm_num [round2, jsRound]
  have hc : ⌈(617 : ℚ)/5000⌉ = (1 : ℤ) := by
    rw [Int.ceil_eq_iff]
    norm_num
  refine ⟨?_, by norm_num [round4, jsRound], by norm_num⟩
  norm_num +decide [generateShoppingItems, genMaps, buildReqs, reqStep,
    reqQuantityUnit, ingArticle, reqKey, upsertReq, jsOrStr, truthyStr, truthyS,
    reqArticleIds, baseStockMap, basePkgMap, articlesWithMinStock, extendMaps,
    stockOf, batchMatch, List.filter, List.find?, alookup, lookupOr0, forecastOr0,
    forecastLookup, processReqs, processForecast, processLowStock,
    calculateRecommendedPacks, List.filterMap, tinyArticle, tinyIngredient,
    tinyRecipe, tinyMeal, h4, h2, hc]

/-! ## Claim C4: created items and the demand sign -/

/-- C4 counterexample fixtures: a single recipe need of 0.0001 units. -/
def epsArticle : Article := { id := "eps", name := "Eps", defaultUnit := "pcs" }

def epsIngredient : Ingredient :=
  { id := "ei1", articleId := some "eps", quantity := 1/10000, unit := "pcs" }

def epsRecipe : Recipe :=
  { name := "E", servings := 1, ingredients := [epsIngredient] }

def epsMeal : MealEntry := { servings := 1, recipe := epsRecipe }

/-- C4 counterexample: generation CAN create a `ShoppingListItem` with
`neededQuantity = 0`.  A recipe need of 0.0001 passes the positivity check
on the 4-decimal total (0.0001 > 0), but the stored 2-decimal value rounds
to 0, so an item with `neededQuantity ≤ 0` is created. -/
theorem generate_creates_zero_quantity_item :
    generateShoppingItems [] [epsArticle] [] [epsMeal] []
      = [{ articleId := some "eps", customName := some "Eps",
           neededQuantity := 0, recommendedPacks := 1,
           reason := "RECIPE" }] ∧
    ¬ (0 : ℚ) < 0 := by
  have h4 : round4 ((1 : ℚ)/10000) = 1/10000 := by
    norm_num [round4, jsRound]
  have h2 : round2 ((1 : ℚ)/10000) = 0 := by
    norm_num [round2, jsRound]
  have hc : ⌈(1 : ℚ)/10000⌉ = (1 : ℤ) := by
    rw [Int.ceil_eq_iff]
    norm_num
  refine ⟨?_, by norm_num⟩
  norm_num +decide [generateShoppingItems, genMaps, buildReqs, reqStep,
    reqQuantityUnit, ingArticle, reqKey, upsertReq, jsOrStr, truthyStr, truthyS,
    reqArticleIds, baseStockMap, basePkgMap, articlesWithMinStock, extendMaps,
    stockOf, batchMatch, List.filter, List.find?, alookup, lookupOr0, forecastOr0,
    forecastLookup, processReqs, processForecast, processLowStock,
    calculateRecommendedPacks, List.filterMap, epsArticle, epsIngredient,
    epsRecipe, epsMeal, h4, h2, hc]

/-- C4 (amended: generated items have `neededQuantity ≥ 0`, with 0 possible
when the positive 4-decimal total rounds to 0 at 2 decimals — as the
counterexample shows — while manually added items are always strictly
positive by schema validation). -/
theorem neededQuantity_never_negative (units : List UnitData)
    (articles : List Article) (batches : List Batch)
    (mealEntries : List MealEntry) (forecastItems : List ForecastItem) :
    (∀ item ∈ generateShoppingItems units articles batches mealEntries
        forecastItems, 0 ≤ item.neededQuantity) ∧
    (∀ (inp : AddItemInput) (r : CreatedItem),
      addShoppingItem inp = .ok r → 0 < r.neededQuantity) := by
  constructor
  · intro item hitem
    have hitems : generateShoppingItems units articles batches mealEntries
        forecastItems
        = (processReqs (genMaps articles batches
              (buildReqs units articles mealEntries)).1
            (genMaps articles batches (buildReqs units articles mealEntries)).2.2
            (genMaps articles batches (buildReqs units articles mealEntries)).2.1
            units forecastItems (buildReqs units articles mealEntries) []).1
          ++ (processForecast (genMaps articles batches
                (buildReqs units articles mealEntries)).1
              (genMaps articles batches
                (buildReqs units articles mealEntries)).2.2
              (genMaps articles batches
                (buildReqs units articles mealEntries)).2.1
              units forecastItems
              (processReqs (genMaps articles batches
                  (buildReqs units articles mealEntries)).1
                (genMaps articles batches
                  (buildReqs units articles mealEntries)).2.2
                (genMaps articles batches
                  (buildReqs units articles mealEntries)).2.1
                units forecastItems (buildReqs units articles mealEntries) []).2).1
          ++ processLowStock batches
              (genMaps articles batches
                (buildReqs units articles mealEntries)).2.1
              units (articlesWithMinStock articles)
              (processForecast (genMaps articles batches
                  (buildReqs units articles mealEntries)).1
                (genMaps articles batches
                  (buildReqs units articles mealEntries)).2.2
                (genMaps articles batches
                  (buildReqs units articles mealEntries)).2.1
                units forecastItems
                (processReqs (genMaps articles batches
                    (buildReqs units articles mealEntries)).1
                  (genMaps articles batches
                    (buildReqs units articles mealEntries)).2.2
                  (genMaps articles batches
                    (buildReqs units articles mealEntries)).2.1
                  units forecastItems
                  (buildReqs units articles mealEntries) []).2).2 := by
      simp only [generateShoppingItems]
    rw [hitems] at hitem
    rcases List.mem_append.mp hitem with hmem12 | hmem3
    · rcases List.mem_append.mp hmem12 with hmem | hmem
      · obtain ⟨k, req, hkmem, hiid, hcn, hr, hpos, hneed, hpacks⟩ :=
          processReqs_mem _ _ _ _ _ _ _ item hmem
        rw [hneed]
        exact round2_nonneg (le_of_lt hpos)
      · obtain ⟨f, hfmem, hiid, hcn, hr, hpos, hneed, hpacks⟩ :=
          processForecast_mem _ _ _ _ _ _ item hmem
        rw [hneed]
        exact round2_nonneg (le_of_lt hpos)
    · obtain ⟨a, hamem, mval, hms, hm0, hstock, hiid, hcn, hr, hneed, hpacks⟩ :=
        processLowStock_mem _ _ _ _ _ item hmem3
      rw [hneed]
      exact round2_nonneg (round4_nonneg (by linarith))
  · intro inp r hok
    unfold addShoppingItem at hok
    by_cases hq : inp.quantity ≤ 0
    · simp [hq] at hok
    · rw [if_neg hq] at hok
      cases hok
      simpa using lt_of_not_le hq

/-- Witness for the amended C4: the generated scenario-A line and a
concrete manual addition. -/
theorem neededQuantity_never_negative_witness :
    (0 : ℚ) ≤ GenItem.neededQuantity
      { articleId := some "milk", customName := some "Milk",
        neededQuantity := 1300, recommendedPacks := 2, reason := "RECIPE" } ∧
    (0 : ℚ) < CreatedItem.neededQuantity
      { articleId := none, customName := some "Bread",
        neededQuantity := 5, reason := "MANUAL", estimatedPrice := none } := by
  constructor
  · refine (neededQuantity_never_negative [] [milkArticle] [milkStock]
      [milkMeal] []).1 _ ?_
    rw [scenarioA_items]
    exact List.mem_singleton.mpr rfl
  · refine (neededQuantity_never_negative [] [] [] [] []).2
      { articleId := none, customName := some "Bread", quantity := 5,
        unit := "pcs", reason := "MANUAL", estimatedPrice := none } _ ?_
    norm_num [addShoppingItem]

end Vorratio
